import Mathlib

/-!
Verification of the VintBot brand-matching and deduplicated-notification
pipeline (`src/item.py`, `src/bot/main.py`) against its natural-language
specification.  Python values coming from JSON records are modelled by the
inductive `JVal`; Python exceptions are modelled by `Except PyErr`;
`datetime` values are modelled by the abstract `PyDatetime`.
-/

set_option maxRecDepth 4096

/-- Python-level JSON-ish values as they appear in raw listing records. -/
inductive JVal where
  | null
  | bool (b : Bool)
  | num (n : Int)
  | str (s : String)
  | arr (elems : List JVal)
  | obj (fields : List (String × JVal))
deriving Repr, BEq

/-- The Python exception classes that the modelled code can raise. -/
inductive PyErr where
  | valueError
  | typeError
  | attributeError
  | keyError
deriving Repr, DecidableEq

/-- Python truthiness (`if x:`) for the modelled values. -/
def pyTruthy : JVal → Bool
  | .null => false
  | .bool b => b
  | .num n => n != 0
  | .str s => s != ""
  | .arr l => !l.isEmpty
  | .obj f => !f.isEmpty

/-- Python `v == s` against a string literal: only strings compare equal
to strings. -/
def jvalEqStr (v : JVal) (s : String) : Bool :=
  match v with
  | .str t => t == s
  | _ => false

/-- Python `d.get(k, dflt)` on a dict represented as an association list. -/
def dictGet (fields : List (String × JVal)) (k : String) (dflt : JVal) : JVal :=
  match fields.find? (fun p => p.1 == k) with
  | some p => p.2
  | none => dflt

/-- Whether a dict has a key (`k in d`). -/
def dictHasKey (fields : List (String × JVal)) (k : String) : Bool :=
  (fields.find? (fun p => p.1 == k)).isSome

/-- Dict lookup `v.get k dflt` on a value that is statically known (or assumed) to be a
dict; for non-dicts it just returns the default (callers must use `jvGet`
when Python would raise `AttributeError`). -/
def objGetD (v : JVal) (k : String) (dflt : JVal) : JVal :=
  match v with
  | .obj fields => dictGet fields k dflt
  | _ => dflt

/-- Whether `v : JVal` is a dict. -/
def JVal.isObj : JVal → Bool
  | .obj _ => true
  | _ => false

/-- Whether `v : JVal` is a string. -/
def JVal.isStr : JVal → Bool
  | .str _ => true
  | _ => false

/-- Whether `v : JVal` is a list. -/
def JVal.isArr : JVal → Bool
  | .arr _ => true
  | _ => false

/-- Whether `v : JVal` is an int/float (Python `isinstance(v, (int, float))`; note
Python `bool` is a subclass of `int`). -/
def JVal.isNumLike : JVal → Bool
  | .num _ => true
  | .bool _ => true
  | _ => false

/-- Python `v.get(k, dflt)`: succeeds on dicts, raises `AttributeError`
otherwise. -/
def jvGet (v : JVal) (k : String) (dflt : JVal) : Except PyErr JVal :=
  match v with
  | .obj _ => .ok (objGetD v k dflt)
  | _ => .error .attributeError

/-! ### Python string primitives

Modelled at the character-list level so that every operation reduces in the
kernel.  All patterns used by the source are ASCII and non-empty, where
these agree with Python's `str` methods. -/

/-- Replace every (non-overlapping, leftmost) occurrence of `pat` by
`repl`; `fuel` bounds the number of steps. -/
def replaceAuxCL (pat repl : List Char) : Nat → List Char → List Char
  | 0, l => l
  | _ + 1, [] => []
  | fuel + 1, c :: rest =>
    if !pat.isEmpty && pat.isPrefixOf (c :: rest) then
      repl ++ replaceAuxCL pat repl fuel ((c :: rest).drop pat.length)
    else
      c :: replaceAuxCL pat repl fuel rest

/-- Python `s.replace(pat, repl)` for non-empty `pat`. -/
def strReplace (s pat repl : String) : String :=
  String.mk (replaceAuxCL pat.toList repl.toList s.length s.toList)

/-- Split on every occurrence of `pat`; `acc` holds the current (reversed)
chunk, `fuel` bounds the number of steps. -/
def splitOnAuxCL (pat : List Char) : Nat → List Char → List Char → List (List Char)
  | 0, acc, l => [acc.reverse ++ l]
  | _ + 1, acc, [] => [acc.reverse]
  | fuel + 1, acc, c :: rest =>
    if !pat.isEmpty && pat.isPrefixOf (c :: rest) then
      acc.reverse :: splitOnAuxCL pat fuel [] ((c :: rest).drop pat.length)
    else
      splitOnAuxCL pat fuel (c :: acc) rest

/-- Python `s.split(pat)` for non-empty `pat`. -/
def strSplitOn (s pat : String) : List String :=
  (splitOnAuxCL pat.toList (s.length + 1) [] s.toList).map String.mk

/-- Does `pat` occur in `l`? -/
def containsAuxCL (pat : List Char) : List Char → Bool
  | [] => pat.isEmpty
  | c :: rest => pat.isPrefixOf (c :: rest) || containsAuxCL pat rest

/-- Python `pat in s` for strings. -/
def strContains (s pat : String) : Bool :=
  containsAuxCL pat.toList s.toList

/-- Python `s.lower()` (ASCII; the only non-ASCII character in play, `ü`,
is left unchanged by both). -/
def strLower (s : String) : String :=
  String.mk (s.toList.map Char.toLower)

/-- Drop leading whitespace. -/
def dropLeadingWS : List Char → List Char
  | [] => []
  | c :: rest => if c.isWhitespace then dropLeadingWS rest else c :: rest

/-- Python `s.strip()` (ASCII whitespace). -/
def strStrip (s : String) : String :=
  String.mk ((dropLeadingWS ((dropLeadingWS s.toList).reverse)).reverse)

/-- Python `k in v`: key membership for dicts, substring for strings,
element membership for lists, `TypeError` otherwise. -/
def pyContains (v : JVal) (k : String) : Except PyErr Bool :=
  match v with
  | .obj fields => .ok (dictHasKey fields k)
  | .str s => .ok (strContains s k)
  | .arr l => .ok (l.any (fun x => jvalEqStr x k))
  | _ => .error .typeError

/-- Python `v[k]` with a string key: dict lookup (`KeyError` when absent),
`TypeError` on every other value. -/
def pySubscript (v : JVal) (k : String) : Except PyErr JVal :=
  match v with
  | .obj fields =>
    match fields.find? (fun p => p.1 == k) with
    | some p => .ok p.2
    | none => .error .keyError
  | _ => .error .typeError

/-- Python `for x in v`: lists iterate elements, strings iterate one-char
strings, dicts iterate keys, everything else raises `TypeError`. -/
def pyIter (v : JVal) : Except PyErr (List JVal) :=
  match v with
  | .arr l => .ok l
  | .str s => .ok (s.toList.map (fun c => .str (String.mk [c])))
  | .obj fields => .ok (fields.map (fun p => .str p.1))
  | _ => .error .typeError

/-- Python `v.strip()`: only strings have `.strip`; anything else raises
`AttributeError`. -/
def pyStrip (v : JVal) : Except PyErr String :=
  match v with
  | .str s => .ok (strStrip s)
  | _ => .error .attributeError

/-- Python `v.replace('Z', '+00:00')` on a value expected to be a string;
non-strings raise `AttributeError`. -/
def pyReplaceZ (v : JVal) : Except PyErr String :=
  match v with
  | .str s => .ok (strReplace s "Z" "+00:00")
  | _ => .error .attributeError

/-- Abstract `datetime` values produced by `Item._parse_timestamp`. -/
inductive PyDatetime where
  | fromEpoch (n : Int)
  | iso (s : String)
  | now
deriving Repr, DecidableEq

/-- Python `datetime.fromtimestamp(v, tz=timezone.utc)`: accepts ints/floats
(and bools, which are ints in Python), raises `TypeError` otherwise. -/
def fromtimestamp : JVal → Except PyErr PyDatetime
  | .num n => .ok (.fromEpoch n)
  | .bool b => .ok (.fromEpoch (if b then 1 else 0))
  | _ => .error .typeError

/-! ## `src/item.py` -/

/-- Source 1 of `Item._parse_timestamp`: the photo high-resolution
timestamp (`data.get("photo", {}).get("high_resolution", {})
.get("timestamp")`).  `some dt` models the `return`, `none` falling
through to the next source; exceptions propagate. -/
def tsSourcePhoto (data : List (String × JVal)) : Except PyErr (Option PyDatetime) := do
  let photo := dictGet data "photo" (.obj [])
  let hires ← jvGet photo "high_resolution" (.obj [])
  let timestamp ← jvGet hires "timestamp" .null
  if pyTruthy timestamp then
    let dt ← fromtimestamp timestamp
    pure (some dt)
  else
    pure none

/-- Source 2: the `created_at_ts` field — numeric treated as epoch
seconds (Python `bool` is an `int`), strings parsed as ISO-8601 with a
trailing `Z` rewritten to `+00:00` and a `ValueError` caught locally
(`pass`), any other truthy value skipped.  This stage cannot raise.
`isoOk` models which strings `datetime.fromisoformat` accepts. -/
def tsSourceCreated (isoOk : String → Bool) (data : List (String × JVal)) :
    Option PyDatetime :=
  let created := dictGet data "created_at_ts" .null
  if pyTruthy created then
    match created with
    | .num n => some (.fromEpoch n)
    | .bool b => some (.fromEpoch (if b then 1 else 0))
    | .str s =>
      if isoOk (strReplace s "Z" "+00:00") then
        some (.iso (strReplace s "Z" "+00:00"))
      else none
    | _ => none
  else none

/-- Source 3: the `last_loged_on_ts` string; `.replace` on a truthy
non-string raises `AttributeError`, which no handler catches. -/
def tsSourceLast (isoOk : String → Bool) (data : List (String × JVal)) :
    Except PyErr (Option PyDatetime) := do
  let lastLogged := dictGet data "last_loged_on_ts" .null
  if pyTruthy lastLogged then
    let s ← pyReplaceZ lastLogged
    if isoOk s then pure (some (.iso s)) else pure none
  else
    pure none

/-- The body of `Item._parse_timestamp`'s outer `try:` block: the three
sources in order, a `return` in an earlier source short-circuiting the
later ones. -/
def timestampSources (isoOk : String → Bool) (data : List (String × JVal)) :
    Except PyErr (Option PyDatetime) := do
  match ← tsSourcePhoto data with
  | some dt => pure (some dt)
  | none =>
    match tsSourceCreated isoOk data with
    | some dt => pure (some dt)
    | none => tsSourceLast isoOk data

/-- Model of `Item._parse_timestamp`: the source chain wrapped in
`except (ValueError, TypeError)`, falling through to
`datetime.now(timezone.utc)`.  Any other exception (e.g. `AttributeError`)
propagates to the caller. -/
def parse_timestamp (isoOk : String → Bool) (data : List (String × JVal)) :
    Except PyErr PyDatetime :=
  match timestampSources isoOk data with
  | .ok (some dt) => .ok dt
  | .ok none => .ok .now
  | .error .valueError => .ok .now
  | .error .typeError => .ok .now
  | .error e => .error e

/-- The `sections` loop of `Item._extract_description`: collects
`section["data"]["description"]` for every section whose `name` equals
`"description"`, keeping only truthy values. -/
def sectionDescriptionCandidates : List JVal → Except PyErr (List JVal)
  | [] => .ok []
  | sec :: rest => do
    let name ← jvGet sec "name" .null
    if jvalEqStr name "description" then
      let dat ← jvGet sec "data" (.obj [])
      let sd ← jvGet dat "description" .null
      let tail ← sectionDescriptionCandidates rest
      if pyTruthy sd then pure (sd :: tail) else pure tail
    else
      sectionDescriptionCandidates rest

/-- The final scan of `Item._extract_description`: first candidate that is
truthy and non-blank after `.strip()` wins; otherwise the default
sentinel.  `.strip()` on a non-string raises `AttributeError`. -/
def firstValidDescription : List JVal → Except PyErr String
  | [] => .ok "No description provided"
  | d :: rest =>
    if pyTruthy d then do
      let s ← pyStrip d
      if s != "" then pure s else firstValidDescription rest
    else firstValidDescription rest

/-- The `item_box` block of `Item._extract_description`: append
`item_box["description"]` to the candidates when `"description" in
item_box`. -/
def boxStep (data : List (String × JVal)) (cands : List JVal) :
    Except PyErr (List JVal) := do
  let item_box := dictGet data "item_box" (.obj [])
  let hasBoxDesc ← pyContains item_box "description"
  if hasBoxDesc then
    let v ← pySubscript item_box "description"
    pure (cands ++ [v])
  else
    pure cands

/-- The `props.pageProps.itemDto` block of `Item._extract_description`. -/
def dtoStep (data : List (String × JVal)) (cands : List JVal) :
    Except PyErr (List JVal) := do
  let pageProps ← jvGet (dictGet data "props" (.obj [])) "pageProps" (.obj [])
  let item_dto ← jvGet pageProps "itemDto" (.obj [])
  let hasDtoDesc ← pyContains item_dto "description"
  if hasDtoDesc then
    let v ← pySubscript item_dto "description"
    pure (cands ++ [v])
  else
    pure cands

/-- The `sections` block of `Item._extract_description`. -/
def sectionsStep (data : List (String × JVal)) : Except PyErr (List JVal) := do
  let sections := dictGet data "sections" (.arr [])
  let secList ← pyIter sections
  sectionDescriptionCandidates secList

/-- Model of `Item._extract_description`: collects candidates from the flat field,
`item_box`, `props.pageProps.itemDto` and the `sections` list, in that
order, then returns the first non-blank candidate. -/
def extract_description (data : List (String × JVal)) : Except PyErr String := do
  let cands1 : List JVal :=
    if dictHasKey data "description" then [dictGet data "description" .null] else []
  let cands2 ← boxStep data cands1
  let cands3 ← dtoStep data cands2
  let cands4 ← sectionsStep data
  firstValidDescription (cands3 ++ cands4)

/-- Feedback counts extracted by `Item._extract_user_feedback`; the raw
values are kept as they appear in the record (defaulting to `0`). -/
structure Feedback where
  positive_feedback_count : JVal
  neutral_feedback_count : JVal
  negative_feedback_count : JVal
deriving Repr, BEq

/-- Model of `Item._extract_user_feedback`. -/
def extract_user_feedback (data : List (String × JVal)) : Except PyErr Feedback := do
  let user := dictGet data "user" (.obj [])
  let p ← jvGet user "positive_feedback_count" (.num 0)
  let nt ← jvGet user "neutral_feedback_count" (.num 0)
  let ng ← jvGet user "negative_feedback_count" (.num 0)
  pure ⟨p, nt, ng⟩

/-- The listing model built by `Item.__init__` (minus the `raw_data`
back-reference). -/
structure Item where
  id : JVal
  title : JVal
  price : JVal
  currency : JVal
  brand_title : JVal
  size_title : JVal
  url : JVal
  photo_url : JVal
  description : String
  rapid_api_description : Option String
  created_at_ts : PyDatetime
  status : JVal
  user_feedback : Feedback
deriving Repr

/-- Model of `Item.__init__`: field extraction in source order; steps that can raise
are sequenced in `Except`. -/
def Item.fromRaw (isoOk : String → Bool) (data : List (String × JVal)) :
    Except PyErr Item := do
  let idv := dictGet data "id" (.str "Unknown ID")
  let title := dictGet data "title" (.str "No title provided")
  let price := dictGet data "price" (.str "Unknown price")
  let currency := dictGet data "currency" (.str "Unknown currency")
  let brand_title := dictGet data "brand_title" (.str "Unknown brand")
  let size_title := dictGet data "size_title" (.str "Unknown size")
  let url := dictGet data "url" (.str "No URL provided")
  let photo_url ← jvGet (dictGet data "photo" (.obj [])) "url" (.str "No photo URL")
  let description ← extract_description data
  let created_at_ts ← parse_timestamp isoOk data
  let status := dictGet data "status" (.str "Unknown status")
  let user_feedback ← extract_user_feedback data
  pure ⟨idv, title, price, currency, brand_title, size_title, url, photo_url,
        description, none, created_at_ts, status, user_feedback⟩

/-- Model of `Item.update_description_from_rapid_api`: stores the fetched
description only when it is truthy (non-`None`, non-empty). -/
def update_description_from_rapid_api (it : Item) (d : Option String) : Item :=
  match d with
  | some s => if s != "" then { it with rapid_api_description := some s } else it
  | none => it

/-- Model of `Item.get_description`: the RapidAPI description when truthy, else the
extracted one. -/
def Item.get_description (it : Item) : String :=
  match it.rapid_api_description with
  | some s => if s != "" then s else it.description
  | none => it.description

/-! ## `src/bot/main.py` — brand matcher -/

/-- A brand route: the `{'main_brand': ..., 'channel_id': ...}` dict stored
in the alias mapping built by `MyBot._create_alias_mapping`. -/
structure Route where
  main_brand : String
  channel_id : Int
deriving Repr, DecidableEq

/-- Lookup in the alias mapping (`brand_lower in self.brand_aliases` /
`self.brand_aliases[brand_lower]`); the mapping is modelled as an
insertion-ordered association list with distinct keys. -/
def aliasLookup (idx : List (String × Route)) (k : String) : Option Route :=
  (idx.find? (fun p => p.1 == k)).map (fun p => p.2)

/-- The hardcoded `specific_brands` list used by the substring fallback in
`MyBot._find_matching_brand`. -/
def specific_brands : List String :=
  ["cole buxton", "acne studios", "our legacy", "canada goose",
   "palace", "bape", "clints", "stussy"]

/-- One alias matches via the compound-brand `" x "` split rule. -/
def splitRuleMatches (brand_lower alia : String) : Bool :=
  strContains brand_lower " x " &&
    (strSplitOn brand_lower " x ").any (fun part => strStrip part == alia)

/-- One alias matches via the fixed-list substring fallback. -/
def substringRuleMatches (brand_lower alia : String) : Bool :=
  specific_brands.contains alia && strContains brand_lower alia

/-- The final `for alias, data in self.brand_aliases.items():` loop of
`MyBot._find_matching_brand`: per alias, first the `" x "` split check,
then the `specific_brands` substring check. -/
def fallbackMatchLoop (brand_lower : String) : List (String × Route) → Option Route
  | [] => none
  | (alia, data) :: rest =>
    if splitRuleMatches brand_lower alia then some data
    else if substringRuleMatches brand_lower alia then some data
    else fallbackMatchLoop brand_lower rest

/-- The variant forms tried by `MyBot._find_matching_brand` after the exact
lookup fails. -/
def brandVariations (brand_lower : String) : List String :=
  [brand_lower,
   strReplace brand_lower " " "",
   strReplace brand_lower "ü" "u",
   strReplace brand_lower "-" " ",
   strReplace brand_lower "." ""]

/-- Try each variation against the alias mapping, first hit wins. -/
def variationLookup (idx : List (String × Route)) : List String → Option Route
  | [] => none
  | v :: rest =>
    match aliasLookup idx v with
    | some r => some r
    | none => variationLookup idx rest

/-- Model of `MyBot._find_matching_brand`. -/
def find_matching_brand (idx : List (String × Route)) (brand_title : String) :
    Option Route :=
  if brand_title == "" then none
  else
    let brand_lower := strStrip (strLower brand_title)
    match aliasLookup idx brand_lower with
    | some r => some r
    | none =>
      match variationLookup idx (brandVariations brand_lower) with
      | some r => some r
      | none => fallbackMatchLoop brand_lower idx

/-! ## `src/bot/main.py` — rendering helpers -/

/-- Model of `MyBot.time_ago`, as a function of the elapsed whole seconds
`int((now - created_at).total_seconds())`; Python `//` is floor
division. -/
def time_ago (seconds_diff : Int) : String :=
  if seconds_diff < 60 then
    toString seconds_diff ++ " seconds ago"
  else if seconds_diff < 3600 then
    toString (Int.fdiv seconds_diff 60) ++ " minute" ++
      (if Int.fdiv seconds_diff 60 != 1 then "s" else "") ++ " ago"
  else if seconds_diff < 86400 then
    toString (Int.fdiv seconds_diff 3600) ++ " hour" ++
      (if Int.fdiv seconds_diff 3600 != 1 then "s" else "") ++ " ago"
  else
    toString (Int.fdiv seconds_diff 86400) ++ " day" ++
      (if Int.fdiv seconds_diff 86400 != 1 then "s" else "") ++ " ago"

/-- Python's `round` (banker's rounding, round-half-to-even) on an exact
rational. -/
def roundHE (x : ℚ) : ℤ :=
  if x - ⌊x⌋ < 1/2 then ⌊x⌋
  else if x - ⌊x⌋ > 1/2 then ⌊x⌋ + 1
  else if Even ⌊x⌋ then ⌊x⌋ else ⌊x⌋ + 1

/-- Python's `round(x, 1)` (one decimal place, half-to-even). -/
def round1dp (x : ℚ) : ℚ := (roundHE (10 * x) : ℚ) / 10

/-- The reputation percentage computed in `MyBot.send_item_to_discord`:
`round(float(positive) * 100 / total, 1) if total > 0 else 0`. -/
def reputation_percentage (positive total : ℕ) : ℚ :=
  if 0 < total then round1dp ((positive * 100 : ℚ) / total) else 0

/-- Model of `MyBot.get_star_rating`: `round(percentage / 20)` star glyphs. -/
def get_star_rating (reputation : ℚ) : String :=
  let star_count := roundHE (reputation / 20)
  String.join (List.replicate star_count.toNat "⭐️")

/-- The `Seller Rating` embed field value built in
`MyBot.send_item_to_discord`: `f"{star_rating} ({total_feedback})"`. -/
def seller_rating_field (positive neutral negative : ℕ) : String :=
  let total := positive + neutral + negative
  get_star_rating (reputation_percentage positive total) ++ " (" ++ toString total ++ ")"

/-! ## `src/bot/main.py` — enrichment retry loop -/

/-- The possible outcomes of one `requests.get` attempt inside
`fetch_user_feedback` / `fetch_item_description`: a successful JSON
payload, an HTTP error status raised by `raise_for_status`, or a
transport-level `RequestException`. -/
inductive Outcome (α : Type) where
  | success (v : α)
  | httpError (status : Nat)
  | transport
deriving Repr, DecidableEq

/-- The observable result of the retry loop shared by
`fetch_user_feedback` and `fetch_item_description`: the returned value,
the number of HTTP attempts made, and the `time.sleep` durations in
order. -/
structure FetchResult (α : Type) where
  result : Option α
  attempts : Nat
  sleeps : List Nat
deriving Repr, DecidableEq

/-- The `for attempt in range(3):` loop skeleton shared by
`fetch_user_feedback` and `fetch_item_description`, with a success arm
that returns the parsed payload unchanged (as `fetch_user_feedback`
does): on success return the payload; on HTTP status 429 sleep
`2 ** attempt` and continue; on another HTTP error break out of the
loop; on a transport error sleep `2 ** attempt` and continue.
`remaining` counts loop iterations left, `i` is the current `attempt`
index.  `fetch_item_description`'s success arm additionally subscripts
the payload and is modelled separately by `descGo`. -/
def retryGo {α : Type} (outcomes : Nat → Outcome α) :
    Nat → Nat → List Nat → FetchResult α
  | 0, i, sleeps => ⟨none, i, sleeps⟩
  | remaining + 1, i, sleeps =>
    match outcomes i with
    | .success v => ⟨some v, i + 1, sleeps⟩
    | .httpError status =>
      if status == 429 then retryGo outcomes remaining (i + 1) (sleeps ++ [2 ^ i])
      else ⟨none, i + 1, sleeps⟩
    | .transport => retryGo outcomes remaining (i + 1) (sleeps ++ [2 ^ i])

/-- The loop skeleton run for three attempts, then `return None`. -/
def retryFetch {α : Type} (outcomes : Nat → Outcome α) : FetchResult α :=
  retryGo outcomes 3 0 []

/-- Model of `MyBot.fetch_user_feedback`: three attempts; the success arm
`return feedback_data` hands the parsed JSON back unchanged, so the
function itself never raises (the loop catches exactly `HTTPError` and
`RequestException`, which cover every raising operation in its body). -/
def fetch_user_feedback (outcomes : Nat → Outcome JVal) : FetchResult JVal :=
  retryFetch outcomes

/-- The loop of `MyBot.fetch_item_description`: like `retryGo`, except
that the success arm is `return item_data.get('description')` — a `.get`
on the parsed JSON payload, which raises `AttributeError` past the two
`except` clauses (and out of the function) when the payload is not a
dict. -/
def descGo (outcomes : Nat → Outcome JVal) :
    Nat → Nat → List Nat → Except PyErr (FetchResult JVal)
  | 0, i, sleeps => .ok ⟨none, i, sleeps⟩
  | remaining + 1, i, sleeps =>
    match outcomes i with
    | .success payload =>
      match jvGet payload "description" .null with
      | .ok v => .ok ⟨some v, i + 1, sleeps⟩
      | .error e => .error e
    | .httpError status =>
      if status == 429 then descGo outcomes remaining (i + 1) (sleeps ++ [2 ^ i])
      else .ok ⟨none, i + 1, sleeps⟩
    | .transport => descGo outcomes remaining (i + 1) (sleeps ++ [2 ^ i])

/-- Model of `MyBot.fetch_item_description`: three attempts, then
`return None`; an `AttributeError` from the success arm escapes to the
caller. -/
def fetch_item_description (outcomes : Nat → Outcome JVal) :
    Except PyErr (FetchResult JVal) :=
  descGo outcomes 3 0 []

/-! ## `src/bot/main.py` — polling tick -/

/-- Model of `MyBot._is_child_size`. -/
def is_child_size (size_title : String) : Bool :=
  if size_title == "" then false
  else
    let size_lower := strLower size_title
    ["months", "years", "child", "kids", "baby"].any
      (fun indicator => strContains size_lower indicator)

/-- The per-candidate data consumed by one iteration of
`MyBot.check_vinted`, together with whether the `channel.send` call inside
`send_item_to_discord` would raise for this candidate. -/
structure TickItem where
  itemId : Nat
  size_title : String
  brand_title : String
  user_id : Option Nat
  sendRaises : Bool
deriving Repr, DecidableEq

/-- Observable external calls made while processing candidates. -/
inductive BotEvent where
  | fetchFeedback (userId : Nat)
  | fetchDescription (itemId : Nat)
  | send (itemId : Nat)
deriving Repr, DecidableEq

/-- The body of `MyBot.send_item_to_discord` up to and including
`channel.send`: the RapidAPI description fetch always happens; the send
event is emitted only when `channel.send` does not raise; `none` models
the exception escaping the body. -/
def sendBody (it : TickItem) : List BotEvent × Option Unit :=
  if it.sendRaises then ([.fetchDescription it.itemId], none)
  else ([.fetchDescription it.itemId, .send it.itemId], some ())

/-- Model of `MyBot.send_item_to_discord`: the whole body is wrapped in
`except Exception`, which only logs — so the coroutine always returns
normally, whatever happened inside. -/
def send_item_to_discord (it : TickItem) : List BotEvent × Unit :=
  ((sendBody it).1, ())

/-- The bot state relevant to deduplication: `self.sent_items`. -/
structure BotState where
  sent_items : List Nat
deriving Repr, DecidableEq

/-- Python `item.brand_title.lower() if item.brand_title else ""`. -/
def normalizedBrandTitle (brand_title : String) : String :=
  if brand_title != "" then strLower brand_title else ""

/-- One iteration of the `for item in items:` loop of
`MyBot.check_vinted`: skip children's sizes, unmatched brands, missing
user ids, already-sent ids and missing channels; otherwise fetch feedback,
call `send_item_to_discord` and append the id to `sent_items`.  `chOk`
models which channel ids `self.get_channel` can resolve. -/
def processItem (idx : List (String × Route)) (chOk : Int → Bool)
    (s : BotState) (it : TickItem) : BotState × List BotEvent :=
  if is_child_size it.size_title then (s, [])
  else
    match find_matching_brand idx (normalizedBrandTitle it.brand_title) with
    | none => (s, [])
    | some route =>
      match it.user_id with
      | none => (s, [])
      | some uid =>
        if it.itemId ∈ s.sent_items then (s, [])
        else if !chOk route.channel_id then (s, [])
        else
          let (ev, _) := send_item_to_discord it
          (⟨s.sent_items ++ [it.itemId]⟩, .fetchFeedback uid :: ev)

/-- One `check_vinted` tick over a fetched batch of candidates. -/
def runTick (idx : List (String × Route)) (chOk : Int → Bool) :
    BotState → List TickItem → BotState × List BotEvent
  | s, [] => (s, [])
  | s, it :: rest =>
    let (s', ev) := processItem idx chOk s it
    let (s'', evs) := runTick idx chOk s' rest
    (s'', ev ++ evs)

/-- A sequence of `check_vinted` ticks. -/
def runTicks (idx : List (String × Route)) (chOk : Int → Bool) :
    BotState → List (List TickItem) → BotState × List BotEvent
  | s, [] => (s, [])
  | s, tick :: rest =>
    let (s', ev) := runTick idx chOk s tick
    let (s'', evs) := runTicks idx chOk s' rest
    (s'', ev ++ evs)

/-- Number of successful sends for a given listing id in an event
trace. -/
def countSends (i : Nat) (evs : List BotEvent) : Nat :=
  (evs.filter (fun e => e == .send i)).length

/-- Whether one attempt outcome causes the loop to retry (HTTP 429 or a
transport-level `RequestException`). -/
def retriableOutcome {α : Type} : Outcome α → Bool
  | .httpError status => status == 429
  | .transport => true
  | .success _ => false

/-- The claim's percentage formula, `round(positiveCount * 100 /
totalCount)` (integer `round`), written as the spec states it, for
comparison with the code's `round(..., 1)`. -/
def claim_reputation_percentage (positive total : ℕ) : ℚ :=
  if 0 < total then (roundHE ((positive * 100 : ℚ) / total) : ℚ) else 0

/-- The description chosen in `MyBot.send_item_to_discord`:
`rapid_api_description if rapid_api_description else item.description`
(the same truthiness test as the `Item` setter/getter, inlined). -/
def displayed_description (rapid : Option String) (own : String) : String :=
  match rapid with
  | some s => if s != "" then s else own
  | none => own

/-- The elements of a JSON list value. -/
def arrElems : JVal → List JVal
  | .arr l => l
  | _ => []

/-- A description candidate is harmless for the final `.strip()` scan:
truthy values must be strings. -/
def wfCand (v : JVal) : Bool := !pyTruthy v || v.isStr

/-- A well-shaped entry of the `sections` list: a dict whose `data`
field, when present, is a dict with a harmless `description`. -/
def wfSection (sec : JVal) : Bool :=
  sec.isObj && (objGetD sec "data" (.obj [])).isObj &&
    wfCand (objGetD (objGetD sec "data" (.obj [])) "description" .null)

/-- All sections well-shaped. -/
def wfSections (l : List JVal) : Bool := l.all wfSection

/-- Well-shapedness of the fields consulted by
`Item._extract_description`: enough for extraction not to raise. -/
def wfDescription (data : List (String × JVal)) : Bool :=
  wfCand (dictGet data "description" .null) &&
  (dictGet data "item_box" (.obj [])).isObj &&
  wfCand (objGetD (dictGet data "item_box" (.obj [])) "description" .null) &&
  (dictGet data "props" (.obj [])).isObj &&
  (objGetD (dictGet data "props" (.obj [])) "pageProps" (.obj [])).isObj &&
  (objGetD (objGetD (dictGet data "props" (.obj [])) "pageProps" (.obj []))
      "itemDto" (.obj [])).isObj &&
  wfCand (objGetD (objGetD (objGetD (dictGet data "props" (.obj []))
      "pageProps" (.obj [])) "itemDto" (.obj [])) "description" .null) &&
  (dictGet data "sections" (.arr [])).isArr &&
  wfSections (arrElems (dictGet data "sections" (.arr [])))

/-- Well-shapedness of the fields consulted by `Item._parse_timestamp`:
enough for it not to raise (any `ValueError`/`TypeError` is caught by its
own handler anyway). -/
def wfTimestampFields (data : List (String × JVal)) : Bool :=
  (dictGet data "photo" (.obj [])).isObj &&
  (objGetD (dictGet data "photo" (.obj [])) "high_resolution" (.obj [])).isObj &&
  (!pyTruthy (dictGet data "last_loged_on_ts" .null) ||
    (dictGet data "last_loged_on_ts" .null).isStr)

/-- Well-shapedness of the whole raw record: enough for `Item.__init__`
not to raise. -/
def wfRecord (data : List (String × JVal)) : Bool :=
  (dictGet data "photo" (.obj [])).isObj &&
  wfDescription data &&
  wfTimestampFields data &&
  (dictGet data "user" (.obj [])).isObj

/-- One description source, as the spec words it: the value must be a
string that is non-blank after stripping. -/
def sourceCandidate (v : JVal) : Option String :=
  match v with
  | .str s => if strStrip s != "" then some (strStrip s) else none
  | _ => none

/-- The spec's sections rule: the first entry named `"description"` whose
`data.description` is non-blank. -/
def spec_sections_description : List JVal → Option String
  | [] => none
  | sec :: rest =>
    if jvalEqStr (objGetD sec "name" .null) "description" then
      match sourceCandidate (objGetD (objGetD sec "data" (.obj [])) "description" .null) with
      | some d => some d
      | none => spec_sections_description rest
    else spec_sections_description rest

/-- The spec's fixed resolution order: flat field, item-box nested field,
page-props nested field, sections scan, default sentinel; first non-blank
wins. -/
def spec_description (data : List (String × JVal)) : String :=
  ((sourceCandidate (dictGet data "description" .null)).orElse (fun _ =>
    (sourceCandidate (objGetD (dictGet data "item_box" (.obj []))
        "description" .null)).orElse (fun _ =>
      (sourceCandidate (objGetD (objGetD (objGetD (dictGet data "props" (.obj []))
          "pageProps" (.obj [])) "itemDto" (.obj [])) "description" .null)).orElse (fun _ =>
        spec_sections_description (arrElems (dictGet data "sections" (.arr []))))))).getD
    "No description provided"

/-- The candidates the sections loop collects, as a pure function. -/
def sectionCandsPure : List JVal → List JVal
  | [] => []
  | sec :: rest =>
    if jvalEqStr (objGetD sec "name" .null) "description" then
      if pyTruthy (objGetD (objGetD sec "data" (.obj [])) "description" .null) then
        objGetD (objGetD sec "data" (.obj [])) "description" .null :: sectionCandsPure rest
      else sectionCandsPure rest
    else sectionCandsPure rest

/-- The final scan, as a pure function over string candidates. -/
def firstNonBlank : List JVal → Option String
  | [] => none
  | d :: rest =>
    match d with
    | .str s => if strStrip s != "" then some (strStrip s) else firstNonBlank rest
    | _ => firstNonBlank rest

/-- Helper `if b then [v] else []`, the contribution of one optional source. -/
def mbCand (b : Bool) (v : JVal) : List JVal := if b then [v] else []

/-! ## Helper lemmas -/

theorem time_ago_seconds_bucket (s : Int) (h0 : s < 60) :
    time_ago s = toString s ++ " seconds ago" := by
  unfold time_ago
  rw [if_pos h0]

theorem time_ago_one_minute (s : Int) (h1 : 60 ≤ s) (h2 : s < 120) :
    time_ago s = "1 minute ago" := by
  have hd : Int.fdiv s 60 = 1 := by
    rw [Int.fdiv_eq_ediv _ (by norm_num : (0:Int) ≤ 60)]
    omega
  unfold time_ago
  rw [if_neg (by omega), if_pos (by omega), hd]
  rfl

theorem time_ago_minutes_bucket (s : Int) (h1 : 120 ≤ s) (h2 : s < 3600) :
    time_ago s = toString (Int.fdiv s 60) ++ " minutes ago" := by
  have hd : (2:Int) ≤ Int.fdiv s 60 := by
    rw [Int.fdiv_eq_ediv _ (by norm_num : (0:Int) ≤ 60)]
    omega
  unfold time_ago
  rw [if_neg (by omega), if_pos (by omega), if_pos (by simp; omega)]
  rw [String.append_assoc, String.append_assoc]
  rfl

theorem time_ago_one_hour (s : Int) (h1 : 3600 ≤ s) (h2 : s < 7200) :
    time_ago s = "1 hour ago" := by
  have hd : Int.fdiv s 3600 = 1 := by
    rw [Int.fdiv_eq_ediv _ (by norm_num : (0:Int) ≤ 3600)]
    omega
  unfold time_ago
  rw [if_neg (by omega), if_neg (by omega), if_pos (by omega), hd]
  rfl

theorem time_ago_one_day (s : Int) (h1 : 86400 ≤ s) (h2 : s < 172800) :
    time_ago s = "1 day ago" := by
  have hd : Int.fdiv s 86400 = 1 := by
    rw [Int.fdiv_eq_ediv _ (by norm_num : (0:Int) ≤ 86400)]
    omega
  unfold time_ago
  rw [if_neg (by omega), if_neg (by omega), if_neg (by omega), hd]
  rfl

theorem time_ago_hours_bucket (s : Int) (h1 : 7200 ≤ s) (h2 : s < 86400) :
    time_ago s = toString (Int.fdiv s 3600) ++ " hours ago" := by
  have hd : (2:Int) ≤ Int.fdiv s 3600 := by
    rw [Int.fdiv_eq_ediv _ (by norm_num : (0:Int) ≤ 3600)]
    omega
  unfold time_ago
  rw [if_neg (by omega), if_neg (by omega), if_pos (by omega), if_pos (by simp; omega)]
  rw [String.append_assoc, String.append_assoc]
  rfl

theorem time_ago_days_bucket (s : Int) (h1 : 172800 ≤ s) :
    time_ago s = toString (Int.fdiv s 86400) ++ " days ago" := by
  have hd : (2:Int) ≤ Int.fdiv s 86400 := by
    rw [Int.fdiv_eq_ediv _ (by norm_num : (0:Int) ≤ 86400)]
    omega
  unfold time_ago
  rw [if_neg (by omega), if_neg (by omega), if_neg (by omega), if_pos (by simp; omega)]
  rw [String.append_assoc, String.append_assoc]
  rfl

theorem fallbackMatchLoop_eq_find (bl : String) (idx : List (String × Route)) :
    fallbackMatchLoop bl idx =
      (idx.find? (fun p => splitRuleMatches bl p.1 || substringRuleMatches bl p.1)).map
        (fun p => p.2) := by
  induction idx with
  | nil => rfl
  | cons hd tl ih =>
    by_cases h1 : splitRuleMatches bl hd.1
    · simp [fallbackMatchLoop, List.find?, h1]
    · by_cases h2 : substringRuleMatches bl hd.1
      · simp [fallbackMatchLoop, List.find?, h1, h2]
      · simp [fallbackMatchLoop, List.find?, h1, h2, ih]

/-! ## Claim C2 — brand resolution: split rule vs substring fallback -/

/-- C2 counterexample: with the alias index
`[("palace", Palace/1), ("stussy", Stussy/2)]` and brand title
`"palace skateboards x stussy"`, the `" x "` split rule matches the
registered alias `"stussy"`, yet `_find_matching_brand` resolves to
`"palace"`'s route via the substring fallback, because the two checks are
interleaved per alias rather than the split step being exhausted first. -/
theorem C2_claim_counterexample :
    find_matching_brand [("palace", ⟨"Palace", 1⟩), ("stussy", ⟨"Stussy", 2⟩)]
        "palace skateboards x stussy" = some ⟨"Palace", 1⟩ ∧
    aliasLookup [("palace", ⟨"Palace", 1⟩), ("stussy", ⟨"Stussy", 2⟩)] "stussy" =
        some ⟨"Stussy", 2⟩ ∧
    splitRuleMatches "palace skateboards x stussy" "stussy" = true ∧
    splitRuleMatches "palace skateboards x stussy" "palace" = false ∧
    (⟨"Palace", 1⟩ : Route) ≠ ⟨"Stussy", 2⟩ := by
  refine ⟨?_, ?_, ?_, ?_, ?_⟩ <;> decide

/-- C2 (amended): when the exact and variant lookups miss, steps 4 and 5
are not layered — they are fused into a single pass over the alias index
in insertion order, trying for each alias first the `" x "` split rule and
then the fixed-list substring fallback; the first alias matching either
rule wins. -/
theorem C2_brand_resolution_fused_pass (idx : List (String × Route))
    (brand_title : String) (h0 : brand_title ≠ "")
    (h1 : aliasLookup idx (strStrip (strLower brand_title)) = none)
    (h2 : variationLookup idx (brandVariations (strStrip (strLower brand_title))) = none) :
    find_matching_brand idx brand_title =
      (idx.find? (fun p =>
        splitRuleMatches (strStrip (strLower brand_title)) p.1 ||
        substringRuleMatches (strStrip (strLower brand_title)) p.1)).map
          (fun p => p.2) := by
  unfold find_matching_brand
  rw [if_neg (by simpa using h0)]
  simp only [h1, h2]
  exact fallbackMatchLoop_eq_find _ _

/-- C2 witness: the fused pass resolves `"Stussy 8 Ball"` to the stussy
route via the substring fallback. -/
theorem C2_brand_resolution_fused_pass_witness :
    find_matching_brand [("palace", ⟨"Palace", 1⟩), ("stussy", ⟨"Stussy", 2⟩)]
        "Stussy 8 Ball" =
      ([(("palace" : String), (⟨"Palace", 1⟩ : Route)), ("stussy", ⟨"Stussy", 2⟩)].find?
        (fun p =>
          splitRuleMatches (strStrip (strLower "Stussy 8 Ball")) p.1 ||
          substringRuleMatches (strStrip (strLower "Stussy 8 Ball")) p.1)).map
            (fun p => p.2) :=
  C2_brand_resolution_fused_pass _ _ (by decide) (by decide) (by decide)

/-! ## Claim C5 — relative-time formatting -/

/-- C5 counterexample: the seconds bucket has no singular/plural handling,
so an elapsed time of 1 second renders with a plural `s`. -/
theorem C5_claim_counterexample :
    time_ago 1 = "1 seconds ago" ∧ time_ago 1 ≠ "1 second ago" := by
  exact ⟨rfl, by decide⟩

/-- C5 (amended): the formatter maps elapsed seconds to exactly one of the
four buckets with the stated example outputs, and the minutes, hours and
days buckets have correct singular/plural wording across their whole
ranges — singular exactly when the unit count is 1, plural (with `s`)
otherwise; the seconds bucket always uses the plural form `"seconds"`,
even for a 1-second value. -/
theorem C5_relative_time_buckets :
    time_ago 45 = "45 seconds ago" ∧
    time_ago 90 = "1 minute ago" ∧
    time_ago 3661 = "1 hour ago" ∧
    time_ago 90000 = "1 day ago" ∧
    (∀ s : Int, s < 60 → time_ago s = toString s ++ " seconds ago") ∧
    (∀ s : Int, 60 ≤ s → s < 120 → time_ago s = "1 minute ago") ∧
    (∀ s : Int, 120 ≤ s → s < 3600 →
      time_ago s = toString (Int.fdiv s 60) ++ " minutes ago") ∧
    (∀ s : Int, 3600 ≤ s → s < 7200 → time_ago s = "1 hour ago") ∧
    (∀ s : Int, 7200 ≤ s → s < 86400 →
      time_ago s = toString (Int.fdiv s 3600) ++ " hours ago") ∧
    (∀ s : Int, 86400 ≤ s → s < 172800 → time_ago s = "1 day ago") ∧
    (∀ s : Int, 172800 ≤ s →
      time_ago s = toString (Int.fdiv s 86400) ++ " days ago") := by
  refine ⟨by decide, by decide, by decide, by decide,
    time_ago_seconds_bucket, time_ago_one_minute, time_ago_minutes_bucket,
    time_ago_one_hour, time_ago_hours_bucket, time_ago_one_day,
    time_ago_days_bucket⟩

/-- C5 witness: the bucket statements instantiated at concrete elapsed
times, covering the singular and plural slices of every bucket. -/
theorem C5_relative_time_buckets_witness :
    time_ago 7 = toString (7 : Int) ++ " seconds ago" ∧
    time_ago 119 = "1 minute ago" ∧
    time_ago 150 = toString (Int.fdiv 150 60) ++ " minutes ago" ∧
    time_ago 3700 = "1 hour ago" ∧
    time_ago 10000 = toString (Int.fdiv 10000 3600) ++ " hours ago" ∧
    time_ago 100000 = "1 day ago" ∧
    time_ago 200000 = toString (Int.fdiv 200000 86400) ++ " days ago" :=
  ⟨C5_relative_time_buckets.2.2.2.2.1 7 (by decide),
   C5_relative_time_buckets.2.2.2.2.2.1 119 (by decide) (by decide),
   C5_relative_time_buckets.2.2.2.2.2.2.1 150 (by decide) (by decide),
   C5_relative_time_buckets.2.2.2.2.2.2.2.1 3700 (by decide) (by decide),
   C5_relative_time_buckets.2.2.2.2.2.2.2.2.1 10000 (by decide) (by decide),
   C5_relative_time_buckets.2.2.2.2.2.2.2.2.2.1 100000 (by decide) (by decide),
   C5_relative_time_buckets.2.2.2.2.2.2.2.2.2.2 200000 (by decide)⟩

/-! ## Claim C7 — enrichment retry policy -/

theorem retryGo_step_retriable {α : Type} (outcomes : Nat → Outcome α)
    (r i : Nat) (sl : List Nat) (h : retriableOutcome (outcomes i) = true) :
    retryGo outcomes (r + 1) i sl = retryGo outcomes r (i + 1) (sl ++ [2 ^ i]) := by
  cases ho : outcomes i with
  | success v => rw [ho] at h; simp [retriableOutcome] at h
  | httpError status =>
    rw [ho] at h
    simp only [retriableOutcome] at h
    simp [retryGo, ho, h]
  | transport => simp [retryGo, ho]

theorem retryGo_step_abort {α : Type} (outcomes : Nat → Outcome α)
    (r i : Nat) (sl : List Nat) (status : Nat)
    (ho : outcomes i = .httpError status) (hne : status ≠ 429) :
    retryGo outcomes (r + 1) i sl = ⟨none, i + 1, sl⟩ := by
  have : (status == 429) = false := by simpa using hne
  simp [retryGo, ho, this]

theorem retryGo_attempts_le {α : Type} (outcomes : Nat → Outcome α) :
    ∀ (r i : Nat) (sl : List Nat), (retryGo outcomes r i sl).attempts ≤ i + r := by
  intro r
  induction r with
  | zero => intro i sl; simp [retryGo]
  | succ n ih =>
    intro i sl
    cases ho : outcomes i with
    | success v => simp [retryGo, ho]
    | httpError status =>
      by_cases h429 : status == 429
      · rw [retryGo_step_retriable _ _ _ _ (by simp [retriableOutcome, ho, h429])]
        have := ih (i + 1) (sl ++ [2 ^ i])
        omega
      · rw [retryGo_step_abort _ _ _ _ status ho (by simpa using h429)]
        simp
    | transport =>
      rw [retryGo_step_retriable _ _ _ _ (by simp [retriableOutcome, ho])]
      have := ih (i + 1) (sl ++ [2 ^ i])
      omega

theorem retryGo_attempts_ge {α : Type} (outcomes : Nat → Outcome α) :
    ∀ (r i : Nat) (sl : List Nat), 1 ≤ r → i + 1 ≤ (retryGo outcomes r i sl).attempts := by
  intro r
  induction r with
  | zero => intro i sl h; omega
  | succ n ih =>
    intro i sl _
    cases ho : outcomes i with
    | success v => simp [retryGo, ho]
    | httpError status =>
      by_cases h429 : status == 429
      · rw [retryGo_step_retriable _ _ _ _ (by simp [retriableOutcome, ho, h429])]
        cases n with
        | zero => simp [retryGo]
        | succ m =>
          have := ih (i + 1) (sl ++ [2 ^ i]) (by omega)
          omega
      · rw [retryGo_step_abort _ _ _ _ status ho (by simpa using h429)]
    | transport =>
      rw [retryGo_step_retriable _ _ _ _ (by simp [retriableOutcome, ho])]
      cases n with
      | zero => simp [retryGo]
      | succ m =>
        have := ih (i + 1) (sl ++ [2 ^ i]) (by omega)
        omega

theorem retryGo_sleeps_prefix {α : Type} (outcomes : Nat → Outcome α) :
    ∀ (r i : Nat) (sl : List Nat), sl <+: (retryGo outcomes r i sl).sleeps := by
  intro r
  induction r with
  | zero => intro i sl; simp [retryGo]
  | succ n ih =>
    intro i sl
    cases ho : outcomes i with
    | success v => simp [retryGo, ho]
    | httpError status =>
      by_cases h429 : status == 429
      · rw [retryGo_step_retriable _ _ _ _ (by simp [retriableOutcome, ho, h429])]
        exact List.IsPrefix.trans (List.prefix_append sl [2 ^ i]) (ih (i + 1) _)
      · rw [retryGo_step_abort _ _ _ _ status ho (by simpa using h429)]
    | transport =>
      rw [retryGo_step_retriable _ _ _ _ (by simp [retriableOutcome, ho])]
      exact List.IsPrefix.trans (List.prefix_append sl [2 ^ i]) (ih (i + 1) _)

/-- The retry-loop skeleton makes at most 3 attempts; a run whose every
attempt fails at transport level makes exactly 3 attempts, returns `None`
and sleeps 1s, 2s, 4s; a non-429 HTTP error (after any retriable prefix)
aborts immediately with `None` and no extra sleep; a retriable outcome
(HTTP 429 or transport error) at attempt `i` sleeps `2 ^ i` seconds and a
further attempt follows. -/
theorem retryLoop_policy {α : Type} (outcomes : Nat → Outcome α) :
    (retryFetch outcomes).attempts ≤ 3 ∧
    ((∀ i, outcomes i = .transport) →
      retryFetch outcomes = ⟨none, 3, [1, 2, 4]⟩) ∧
    (∀ i, i < 3 → (∀ j, j < i → retriableOutcome (outcomes j) = true) →
      ∀ status, outcomes i = .httpError status → status ≠ 429 →
        retryFetch outcomes = ⟨none, i + 1, (List.range i).map (2 ^ ·)⟩) ∧
    (∀ i, i < 2 → (∀ j, j ≤ i → retriableOutcome (outcomes j) = true) →
      (∃ t, (retryFetch outcomes).sleeps = (List.range (i + 1)).map (2 ^ ·) ++ t) ∧
      i + 2 ≤ (retryFetch outcomes).attempts) := by
  refine ⟨retryGo_attempts_le outcomes 3 0 [], ?_, ?_, ?_⟩
  · intro h
    rw [retryFetch, show (3:Nat) = 2 + 1 from rfl,
      retryGo_step_retriable _ _ _ _ (by simp [retriableOutcome, h 0]),
      show (2:Nat) = 1 + 1 from rfl,
      retryGo_step_retriable _ _ _ _ (by simp [retriableOutcome, h 1]),
      show (1:Nat) = 0 + 1 from rfl,
      retryGo_step_retriable _ _ _ _ (by simp [retriableOutcome, h 2])]
    rfl
  · intro i hi hpre status ho hne
    interval_cases i
    · rw [retryFetch, show (3:Nat) = 2 + 1 from rfl,
        retryGo_step_abort _ _ _ _ status ho hne]
      rfl
    · rw [retryFetch, show (3:Nat) = 2 + 1 from rfl,
        retryGo_step_retriable _ _ _ _ (hpre 0 (by omega)),
        show (2:Nat) = 1 + 1 from rfl,
        retryGo_step_abort _ _ _ _ status ho hne]
      rfl
    · rw [retryFetch, show (3:Nat) = 2 + 1 from rfl,
        retryGo_step_retriable _ _ _ _ (hpre 0 (by omega)),
        show (2:Nat) = 1 + 1 from rfl,
        retryGo_step_retriable _ _ _ _ (hpre 1 (by omega)),
        show (1:Nat) = 0 + 1 from rfl,
        retryGo_step_abort _ _ _ _ status ho hne]
      rfl
  · intro i hi hpre
    interval_cases i
    · rw [retryFetch, show (3:Nat) = 2 + 1 from rfl,
        retryGo_step_retriable _ _ _ _ (hpre 0 (by omega))]
      constructor
      · obtain ⟨t, ht⟩ := retryGo_sleeps_prefix outcomes 2 (0 + 1) ([] ++ [2 ^ 0])
        exact ⟨t, by rw [← ht]; simp [List.range_succ]⟩
      · exact retryGo_attempts_ge outcomes 2 (0 + 1) ([] ++ [2 ^ 0]) (by omega)
    · rw [retryFetch, show (3:Nat) = 2 + 1 from rfl,
        retryGo_step_retriable _ _ _ _ (hpre 0 (by omega)),
        show (2:Nat) = 1 + 1 from rfl,
        retryGo_step_retriable _ _ _ _ (hpre 1 (by omega))]
      constructor
      · obtain ⟨t, ht⟩ :=
          retryGo_sleeps_prefix outcomes 1 (0 + 1 + 1) ([] ++ [2 ^ 0] ++ [2 ^ (0 + 1)])
        exact ⟨t, by rw [← ht]; simp [List.range_succ]⟩
      · exact retryGo_attempts_ge outcomes 1 (0 + 1 + 1) ([] ++ [2 ^ 0] ++ [2 ^ (0 + 1)]) (by omega)

theorem jvGet_not_obj (v : JVal) (k : String) (d : JVal)
    (h : v.isObj = false) : jvGet v k d = .error .attributeError := by
  cases v <;> simp_all [jvGet, JVal.isObj]

theorem descGo_step_retriable (outcomes : Nat → Outcome JVal) (r i : Nat)
    (sl : List Nat) (h : retriableOutcome (outcomes i) = true) :
    descGo outcomes (r + 1) i sl = descGo outcomes r (i + 1) (sl ++ [2 ^ i]) := by
  cases ho : outcomes i with
  | success v => rw [ho] at h; simp [retriableOutcome] at h
  | httpError status =>
    rw [ho] at h
    simp only [retriableOutcome] at h
    simp [descGo, ho, h]
  | transport => simp [descGo, ho]

theorem descGo_step_abort (outcomes : Nat → Outcome JVal) (r i : Nat)
    (sl : List Nat) (status : Nat)
    (ho : outcomes i = .httpError status) (hne : status ≠ 429) :
    descGo outcomes (r + 1) i sl = .ok ⟨none, i + 1, sl⟩ := by
  have : (status == 429) = false := by simpa using hne
  simp [descGo, ho, this]

theorem descGo_attempts_le (outcomes : Nat → Outcome JVal) :
    ∀ (r i : Nat) (sl : List Nat) (res : FetchResult JVal),
      descGo outcomes r i sl = .ok res → res.attempts ≤ i + r := by
  intro r
  induction r with
  | zero =>
    intro i sl res h
    simp only [descGo, Except.ok.injEq] at h
    subst h
    simp
  | succ n ih =>
    intro i sl res h
    cases ho : outcomes i with
    | success payload =>
      simp only [descGo, ho] at h
      cases hv : jvGet payload "description" .null with
      | ok v =>
        rw [hv] at h
        simp only [Except.ok.injEq] at h
        subst h
        simp
      | error e =>
        rw [hv] at h
        simp at h
    | httpError status =>
      by_cases h429 : status == 429
      · rw [descGo_step_retriable _ _ _ _ (by simp [retriableOutcome, ho, h429])] at h
        have := ih (i + 1) (sl ++ [2 ^ i]) res h
        omega
      · rw [descGo_step_abort _ _ _ _ status ho (by simpa using h429)] at h
        simp only [Except.ok.injEq] at h
        subst h
        simp
    | transport =>
      rw [descGo_step_retriable _ _ _ _ (by simp [retriableOutcome, ho])] at h
      have := ih (i + 1) (sl ++ [2 ^ i]) res h
      omega

/-- C7 counterexample: an endpoint that answers 200 with a JSON body that
is not a dict (here JSON `null`) makes `fetch_item_description`'s success
arm `item_data.get('description')` raise `AttributeError`, which neither
`except` clause catches — the fetch does raise to its caller, so the
claim's "never raise to the caller" is false.  `fetch_user_feedback`
returns the same payload without raising (second conjunct). -/
theorem C7_claim_counterexample :
    fetch_item_description (fun _ => .success JVal.null) = .error .attributeError ∧
    fetch_user_feedback (fun _ => .success JVal.null) = ⟨some JVal.null, 1, []⟩ :=
  ⟨rfl, rfl⟩

/-- C7 (amended): both enrichment fetches make at most 3 attempts; an
endpoint that always fails at transport level yields exactly 3 attempts,
a final `None` and backoff sleeps 1s, 2s, 4s; a non-429 HTTP error
(after any retriable prefix) aborts immediately with `None` and no extra
sleep; a retriable outcome (HTTP 429 or transport error) at attempt `i`
sleeps `2 ^ i` seconds and a further attempt follows.
`fetch_user_feedback` returns its parsed payload and never raises, and
`fetch_item_description` returns `item_data.get('description')` when the
200 payload is a dict — but raises `AttributeError` to the caller when
it is not. -/
theorem C7_enrichment_retry (outcomes : Nat → Outcome JVal) :
    (fetch_user_feedback outcomes).attempts ≤ 3 ∧
    (∀ res, fetch_item_description outcomes = .ok res → res.attempts ≤ 3) ∧
    ((∀ i, outcomes i = .transport) →
      fetch_user_feedback outcomes = ⟨none, 3, [1, 2, 4]⟩ ∧
      fetch_item_description outcomes = .ok ⟨none, 3, [1, 2, 4]⟩) ∧
    (∀ i, i < 3 → (∀ j, j < i → retriableOutcome (outcomes j) = true) →
      ∀ status, outcomes i = .httpError status → status ≠ 429 →
        fetch_user_feedback outcomes = ⟨none, i + 1, (List.range i).map (2 ^ ·)⟩ ∧
        fetch_item_description outcomes =
          .ok ⟨none, i + 1, (List.range i).map (2 ^ ·)⟩) ∧
    (∀ i, i < 2 → (∀ j, j ≤ i → retriableOutcome (outcomes j) = true) →
      (∃ t, (fetch_user_feedback outcomes).sleeps =
        (List.range (i + 1)).map (2 ^ ·) ++ t) ∧
      i + 2 ≤ (fetch_user_feedback outcomes).attempts) ∧
    (∀ f, outcomes 0 = .success (.obj f) →
      fetch_user_feedback outcomes = ⟨some (.obj f), 1, []⟩ ∧
      fetch_item_description outcomes =
        .ok ⟨some (dictGet f "description" .null), 1, []⟩) ∧
    (∀ payload, outcomes 0 = .success payload → payload.isObj = false →
      fetch_item_description outcomes = .error .attributeError) := by
  refine ⟨(retryLoop_policy outcomes).1, descGo_attempts_le outcomes 3 0 [],
    ?_, ?_, (retryLoop_policy outcomes).2.2.2, ?_, ?_⟩
  · intro h
    refine ⟨(retryLoop_policy outcomes).2.1 h, ?_⟩
    rw [fetch_item_description, show (3:Nat) = 2 + 1 from rfl,
      descGo_step_retriable _ _ _ _ (by simp [retriableOutcome, h 0]),
      show (2:Nat) = 1 + 1 from rfl,
      descGo_step_retriable _ _ _ _ (by simp [retriableOutcome, h 1]),
      show (1:Nat) = 0 + 1 from rfl,
      descGo_step_retriable _ _ _ _ (by simp [retriableOutcome, h 2])]
    rfl
  · intro i hi hpre status ho hne
    refine ⟨(retryLoop_policy outcomes).2.2.1 i hi hpre status ho hne, ?_⟩
    interval_cases i
    · rw [fetch_item_description, show (3:Nat) = 2 + 1 from rfl,
        descGo_step_abort _ _ _ _ status ho hne]
      rfl
    · rw [fetch_item_description, show (3:Nat) = 2 + 1 from rfl,
        descGo_step_retriable _ _ _ _ (hpre 0 (by omega)),
        show (2:Nat) = 1 + 1 from rfl,
        descGo_step_abort _ _ _ _ status ho hne]
      rfl
    · rw [fetch_item_description, show (3:Nat) = 2 + 1 from rfl,
        descGo_step_retriable _ _ _ _ (hpre 0 (by omega)),
        show (2:Nat) = 1 + 1 from rfl,
        descGo_step_retriable _ _ _ _ (hpre 1 (by omega)),
        show (1:Nat) = 0 + 1 from rfl,
        descGo_step_abort _ _ _ _ status ho hne]
      rfl
  · intro f ho
    constructor
    · rw [fetch_user_feedback, retryFetch, show (3:Nat) = 2 + 1 from rfl]
      simp [retryGo, ho]
    · rw [fetch_item_description, show (3:Nat) = 2 + 1 from rfl]
      simp [descGo, ho, jvGet, objGetD]
  · intro payload ho hno
    rw [fetch_item_description, show (3:Nat) = 2 + 1 from rfl]
    simp [descGo, ho, jvGet_not_obj payload "description" .null hno]

/-- C7 witness: the amended statement at concrete endpoints — always
timing out (3 attempts, `None`, sleeps 1s/2s/4s for both fetches), an
immediate 500 (one attempt, `None`, both fetches), and a 200 dict payload
(its `description` field extracted without raising). -/
theorem C7_enrichment_retry_witness :
    fetch_user_feedback (fun _ => .transport) = ⟨none, 3, [1, 2, 4]⟩ ∧
    fetch_item_description (fun _ => .transport) = .ok ⟨none, 3, [1, 2, 4]⟩ ∧
    fetch_user_feedback (fun _ => .httpError 500) = ⟨none, 1, []⟩ ∧
    fetch_item_description
      (fun _ => .success (.obj [("description", .str "desc")])) =
      .ok ⟨some (dictGet [("description", .str "desc")] "description" .null), 1, []⟩ :=
  ⟨((C7_enrichment_retry (fun _ => .transport)).2.2.1 (fun _ => rfl)).1,
   ((C7_enrichment_retry (fun _ => .transport)).2.2.1 (fun _ => rfl)).2,
   ((C7_enrichment_retry (fun _ => .httpError 500)).2.2.2.1 0 (by omega)
     (fun j hj => absurd hj (by omega)) 500 rfl (by omega)).1,
   ((C7_enrichment_retry
       (fun _ => .success (.obj [("description", .str "desc")]))).2.2.2.2.2.1
     [("description", .str "desc")] rfl).2⟩

/-! ## Claims C1 and C6 — per-candidate failure handling and dedup -/

theorem countSends_nil (i : Nat) : countSends i [] = 0 := rfl

theorem countSends_append (i : Nat) (a b : List BotEvent) :
    countSends i (a ++ b) = countSends i a + countSends i b := by
  simp [countSends, List.filter_append]

theorem countSends_cons_feedback (i uid : Nat) (l : List BotEvent) :
    countSends i (.fetchFeedback uid :: l) = countSends i l := by
  simp [countSends, List.filter_cons]

theorem countSends_cons_description (i j : Nat) (l : List BotEvent) :
    countSends i (.fetchDescription j :: l) = countSends i l := by
  simp [countSends, List.filter_cons]

theorem countSends_cons_send (i a : Nat) (l : List BotEvent) :
    countSends i (.send a :: l) = (if a = i then 1 else 0) + countSends i l := by
  by_cases h : a = i
  · subst h
    simp [countSends, List.filter_cons]
    omega
  · simp [countSends, List.filter_cons, h]

/-- Every iteration of the candidate loop either leaves the state alone
with no events, or (for a fresh id) appends the id and emits the feedback
fetch followed by the `send_item_to_discord` body events. -/
theorem processItem_cases (idx : List (String × Route)) (chOk : Int → Bool)
    (s : BotState) (it : TickItem) :
    processItem idx chOk s it = (s, []) ∨
    (it.itemId ∉ s.sent_items ∧ ∃ uid,
      processItem idx chOk s it =
        (⟨s.sent_items ++ [it.itemId]⟩, .fetchFeedback uid :: (sendBody it).1)) := by
  unfold processItem
  split
  · exact Or.inl rfl
  split
  · exact Or.inl rfl
  split
  · exact Or.inl rfl
  rename_i uid hu
  split
  · exact Or.inl rfl
  rename_i hmem
  split
  · exact Or.inl rfl
  · exact Or.inr ⟨hmem, uid, rfl⟩

/-- An id already in the sent-set short-circuits the iteration entirely:
no state change and no external call (no enrichment, no send). -/
theorem processItem_skips_sent (idx : List (String × Route)) (chOk : Int → Bool)
    (s : BotState) (it : TickItem) (h : it.itemId ∈ s.sent_items) :
    processItem idx chOk s it = (s, []) := by
  rcases processItem_cases idx chOk s it with hc | ⟨hmem, _, _⟩
  · exact hc
  · exact absurd h hmem

theorem runTick_cons (idx : List (String × Route)) (chOk : Int → Bool)
    (s : BotState) (it : TickItem) (rest : List TickItem) :
    runTick idx chOk s (it :: rest) =
      ((runTick idx chOk (processItem idx chOk s it).1 rest).1,
       (processItem idx chOk s it).2 ++
         (runTick idx chOk (processItem idx chOk s it).1 rest).2) := by
  simp [runTick]

theorem countSends_sendBody_le (i uid : Nat) (it : TickItem) :
    countSends i (BotEvent.fetchFeedback uid :: (sendBody it).1) ≤ 1 := by
  unfold sendBody
  split
  · simp [countSends_cons_feedback, countSends_cons_description, countSends_nil]
  · rw [countSends_cons_feedback, countSends_cons_description, countSends_cons_send,
      countSends_nil]
    split <;> omega

/-- The per-tick dedup invariant: at most one send per id, no send at all
for ids already marked, the sent-set only grows, and an id that was sent
ends up marked. -/
theorem runTick_dedup_invariant (idx : List (String × Route)) (chOk : Int → Bool)
    (i : Nat) :
    ∀ (its : List TickItem) (s : BotState),
      countSends i (runTick idx chOk s its).2 ≤ 1 ∧
      (i ∈ s.sent_items → countSends i (runTick idx chOk s its).2 = 0) ∧
      (i ∈ s.sent_items → i ∈ (runTick idx chOk s its).1.sent_items) ∧
      (1 ≤ countSends i (runTick idx chOk s its).2 →
        i ∈ (runTick idx chOk s its).1.sent_items) := by
  intro its
  induction its with
  | nil =>
    intro s
    refine ⟨by simp [runTick, countSends_nil], fun _ => by simp [runTick, countSends_nil],
      fun h => by simpa [runTick] using h, fun h => ?_⟩
    rw [show (runTick idx chOk s []).2 = [] from rfl, countSends_nil] at h
    omega
  | cons it rest ih =>
    intro s
    rw [runTick_cons]
    rcases processItem_cases idx chOk s it with hcase | ⟨hmem, uid, hcase⟩
    · rw [hcase]
      simpa [countSends_append, countSends_nil] using ih s
    · rw [hcase]
      obtain ⟨ihA, ihB, ihC, ihD⟩ := ih ⟨s.sent_items ++ [it.itemId]⟩
      by_cases hid : it.itemId = i
      · have hmem' : i ∈ (BotState.mk (s.sent_items ++ [it.itemId])).sent_items := by
          simp [hid]
        have hrest0 := ihB hmem'
        refine ⟨?_, ?_, ?_, ?_⟩
        · rw [countSends_append, hrest0]
          simpa using countSends_sendBody_le i uid it
        · intro hin
          exact absurd (show it.itemId ∈ s.sent_items by rwa [hid]) hmem
        · intro hin
          exact absurd (show it.itemId ∈ s.sent_items by rwa [hid]) hmem
        · intro _
          exact ihC hmem'
      · have hz : countSends i (BotEvent.fetchFeedback uid :: (sendBody it).1) = 0 := by
          unfold sendBody
          split <;>
            simp [countSends_cons_feedback, countSends_cons_description,
              countSends_cons_send, countSends_nil, hid]
        refine ⟨?_, ?_, ?_, ?_⟩
        · rw [countSends_append, hz]
          simpa using ihA
        · intro hin
          rw [countSends_append, hz]
          have hmem' : i ∈ (BotState.mk (s.sent_items ++ [it.itemId])).sent_items := by
            simp [hin]
          simpa using ihB hmem'
        · intro hin
          exact ihC (by simp [hin])
        · intro hcount
          rw [countSends_append, hz] at hcount
          exact ihD (by simpa using hcount)

theorem runTicks_cons (idx : List (String × Route)) (chOk : Int → Bool)
    (s : BotState) (tick : List TickItem) (rest : List (List TickItem)) :
    runTicks idx chOk s (tick :: rest) =
      ((runTicks idx chOk (runTick idx chOk s tick).1 rest).1,
       (runTick idx chOk s tick).2 ++
         (runTicks idx chOk (runTick idx chOk s tick).1 rest).2) := by
  simp [runTicks]

/-- The dedup invariant lifted to an arbitrary sequence of polling
ticks. -/
theorem runTicks_dedup_invariant (idx : List (String × Route)) (chOk : Int → Bool)
    (i : Nat) :
    ∀ (ticks : List (List TickItem)) (s : BotState),
      countSends i (runTicks idx chOk s ticks).2 ≤ 1 ∧
      (i ∈ s.sent_items → countSends i (runTicks idx chOk s ticks).2 = 0) ∧
      (i ∈ s.sent_items → i ∈ (runTicks idx chOk s ticks).1.sent_items) ∧
      (1 ≤ countSends i (runTicks idx chOk s ticks).2 →
        i ∈ (runTicks idx chOk s ticks).1.sent_items) := by
  intro ticks
  induction ticks with
  | nil =>
    intro s
    refine ⟨by simp [runTicks, countSends_nil], fun _ => by simp [runTicks, countSends_nil],
      fun h => by simpa [runTicks] using h, fun h => ?_⟩
    rw [show (runTicks idx chOk s []).2 = [] from rfl, countSends_nil] at h
    omega
  | cons tick rest ih =>
    intro s
    rw [runTicks_cons]
    obtain ⟨tA, tB, tC, tD⟩ := runTick_dedup_invariant idx chOk i tick s
    obtain ⟨ihA, ihB, ihC, ihD⟩ := ih (runTick idx chOk s tick).1
    refine ⟨?_, ?_, ?_, ?_⟩
    · rw [countSends_append]
      by_cases hfst : 1 ≤ countSends i (runTick idx chOk s tick).2
      · have := ihB (tD hfst)
        omega
      · have : countSends i (runTick idx chOk s tick).2 = 0 := by omega
        omega
    · intro hin
      rw [countSends_append, tB hin, ihB (tC hin)]
    · intro hin
      exact ihC (tC hin)
    · intro hcount
      rw [countSends_append] at hcount
      by_cases hfst : 1 ≤ countSends i (runTick idx chOk s tick).2
      · exact ihC (tD hfst)
      · exact ihD (by omega)

/-- C1 (evidence of the code bug): a candidate whose Discord send raises
is still appended to `sent_items`.  `send_item_to_discord` wraps its whole
body in `except Exception` and returns normally, so the
`self.sent_items.append(item.id)` in `check_vinted` runs even though no
send happened (third conjunct: the body's `channel.send` did raise); the
listing is therefore never retried, contradicting the claim. -/
theorem C1_failed_send_still_marked_sent :
    processItem [("nike", ⟨"Nike", 5⟩)] (fun _ => true) ⟨[]⟩
        ⟨7, "M", "Nike", some 42, true⟩ =
      (⟨[7]⟩, [.fetchFeedback 42, .fetchDescription 7]) ∧
    countSends 7 [BotEvent.fetchFeedback 42, BotEvent.fetchDescription 7] = 0 ∧
    (sendBody ⟨7, "M", "Nike", some 42, true⟩).2 = none := by
  refine ⟨?_, ?_, ?_⟩ <;> decide

/-- C6: deduplication is idempotent within a process lifetime — over any
sequence of ticks starting from the empty sent-set, at most one send
event is ever emitted per listing id, and an id already in the sent-set
short-circuits its loop iteration before any enrichment fetch, render or
send (the iteration leaves the state unchanged and emits no event). -/
theorem C6_dedup_idempotent (idx : List (String × Route)) (chOk : Int → Bool)
    (ticks : List (List TickItem)) (i : Nat) :
    countSends i (runTicks idx chOk ⟨[]⟩ ticks).2 ≤ 1 ∧
    ∀ (s : BotState) (it : TickItem), it.itemId ∈ s.sent_items →
      processItem idx chOk s it = (s, []) :=
  ⟨(runTicks_dedup_invariant idx chOk i ticks ⟨[]⟩).1,
   fun s it h => processItem_skips_sent idx chOk s it h⟩

/-- C6 witness: two ticks carrying the same listing produce at most one
send, and with the id marked the iteration is a no-op. -/
theorem C6_dedup_idempotent_witness :
    countSends 7 (runTicks [("nike", ⟨"Nike", 5⟩)] (fun _ => true) ⟨[]⟩
      [[⟨7, "M", "Nike", some 42, false⟩], [⟨7, "M", "Nike", some 42, false⟩]]).2 ≤ 1 ∧
    processItem [("nike", ⟨"Nike", 5⟩)] (fun _ => true) ⟨[7]⟩
      ⟨7, "M", "Nike", some 42, false⟩ = (⟨[7]⟩, []) :=
  ⟨(C6_dedup_idempotent [("nike", ⟨"Nike", 5⟩)] (fun _ => true)
      [[⟨7, "M", "Nike", some 42, false⟩], [⟨7, "M", "Nike", some 42, false⟩]] 7).1,
   (C6_dedup_idempotent [("nike", ⟨"Nike", 5⟩)] (fun _ => true) [] 7).2 ⟨[7]⟩
     ⟨7, "M", "Nike", some 42, false⟩ (by decide)⟩

/-! ## Claim C3 — timestamp resolution fallback -/

@[simp] theorem pyTruthy_null : pyTruthy .null = false := rfl

@[simp] theorem pyTruthy_bool (b : Bool) : pyTruthy (.bool b) = b := rfl

@[simp] theorem pyTruthy_num (n : Int) : pyTruthy (.num n) = (n != 0) := rfl

@[simp] theorem pyTruthy_str (s : String) : pyTruthy (.str s) = (s != "") := rfl

@[simp] theorem jvGet_obj (fields : List (String × JVal)) (k : String) (d : JVal) :
    jvGet (.obj fields) k d = .ok (dictGet fields k d) := rfl

theorem tsSourcePhoto_str (data pf hf : List (String × JVal)) (s : String)
    (hp : dictGet data "photo" (.obj []) = .obj pf)
    (hh : dictGet pf "high_resolution" (.obj []) = .obj hf)
    (ht : dictGet hf "timestamp" .null = .str s)
    (hs : s ≠ "") :
    tsSourcePhoto data = .error .typeError := by
  unfold tsSourcePhoto
  simp [hp, hh, ht, hs, fromtimestamp,
    Bind.bind, Except.bind, Functor.map, Except.map, pure, Except.pure]

theorem tsSourcePhoto_falsy (data pf hf : List (String × JVal))
    (hp : dictGet data "photo" (.obj []) = .obj pf)
    (hh : dictGet pf "high_resolution" (.obj []) = .obj hf)
    (ht : pyTruthy (dictGet hf "timestamp" .null) = false) :
    tsSourcePhoto data = .ok none := by
  unfold tsSourcePhoto
  simp [hp, hh, ht, Bind.bind, Except.bind, pure, Except.pure]

theorem timestampSources_photo_str (isoOk : String → Bool)
    (data pf hf : List (String × JVal)) (s : String)
    (hp : dictGet data "photo" (.obj []) = .obj pf)
    (hh : dictGet pf "high_resolution" (.obj []) = .obj hf)
    (ht : dictGet hf "timestamp" .null = .str s)
    (hs : s ≠ "") :
    timestampSources isoOk data = .error .typeError := by
  unfold timestampSources
  rw [tsSourcePhoto_str data pf hf s hp hh ht hs]
  rfl

theorem timestampSources_created_num (isoOk : String → Bool)
    (data pf hf : List (String × JVal)) (n : Int)
    (hp : dictGet data "photo" (.obj []) = .obj pf)
    (hh : dictGet pf "high_resolution" (.obj []) = .obj hf)
    (ht : pyTruthy (dictGet hf "timestamp" .null) = false)
    (hc : dictGet data "created_at_ts" .null = .num n)
    (hn : n ≠ 0) :
    timestampSources isoOk data = .ok (some (.fromEpoch n)) := by
  unfold timestampSources
  rw [tsSourcePhoto_falsy data pf hf hp hh ht]
  have hcreated : tsSourceCreated isoOk data = some (.fromEpoch n) := by
    unfold tsSourceCreated
    simp [hc, hn]
  simp [hcreated, Bind.bind, Except.bind, pure, Except.pure]

theorem parse_timestamp_of_sources_error_tv (isoOk : String → Bool)
    (data : List (String × JVal))
    (h : timestampSources isoOk data = .error .typeError ∨
         timestampSources isoOk data = .error .valueError) :
    parse_timestamp isoOk data = .ok .now := by
  unfold parse_timestamp
  rcases h with h | h <;> rw [h]

theorem parse_timestamp_of_sources_ok (isoOk : String → Bool)
    (data : List (String × JVal)) (dt : PyDatetime)
    (h : timestampSources isoOk data = .ok (some dt)) :
    parse_timestamp isoOk data = .ok dt := by
  unfold parse_timestamp
  rw [h]

/-- C3 counterexample: a record whose photo timestamp is a (truthy) string
makes `datetime.fromtimestamp` raise `TypeError`; that exception is caught
by the chain-wide `except (ValueError, TypeError)`, which jumps straight
to the current-time fallback — the next source (`created_at_ts = 1000`,
which parses fine on its own, third conjunct) is never tried. -/
theorem C3_claim_counterexample :
    parse_timestamp (fun _ => false)
        [("photo", .obj [("high_resolution", .obj [("timestamp", .str "bad")])]),
         ("created_at_ts", .num 1000)] = .ok .now ∧
    PyDatetime.now ≠ PyDatetime.fromEpoch 1000 ∧
    parse_timestamp (fun _ => false) [("created_at_ts", .num 1000)] =
      .ok (.fromEpoch 1000) := by
  refine ⟨rfl, by decide, rfl⟩

/-- C3 (amended): a `ValueError`/`TypeError` while trying a timestamp
source is caught, but control falls directly to the current-UTC fallback
instead of trying the next source (only a failed ISO-8601 parse of the
string fields falls through to the next source); no `ValueError` or
`TypeError` ever reaches the caller.  When the photo timestamp is absent
or falsy the next source is consulted normally (last conjunct). -/
theorem C3_timestamp_exception_skips_to_fallback (isoOk : String → Bool)
    (data pf hf : List (String × JVal)) :
    (parse_timestamp isoOk data ≠ .error .valueError ∧
     parse_timestamp isoOk data ≠ .error .typeError) ∧
    (dictGet data "photo" (.obj []) = .obj pf →
     dictGet pf "high_resolution" (.obj []) = .obj hf →
      (∀ s : String, dictGet hf "timestamp" .null = .str s → s ≠ "" →
        parse_timestamp isoOk data = .ok .now) ∧
      (pyTruthy (dictGet hf "timestamp" .null) = false →
        ∀ n : Int, dictGet data "created_at_ts" .null = .num n → n ≠ 0 →
          parse_timestamp isoOk data = .ok (.fromEpoch n))) := by
  refine ⟨?_, fun hp hh => ⟨fun s ht hs => ?_, fun ht n hc hn => ?_⟩⟩
  · unfold parse_timestamp
    cases h : timestampSources isoOk data with
    | ok o => cases o <;> simp
    | error e => cases e <;> simp
  · exact parse_timestamp_of_sources_error_tv isoOk data
      (Or.inl (timestampSources_photo_str isoOk data pf hf s hp hh ht hs))
  · exact parse_timestamp_of_sources_ok isoOk data _
      (timestampSources_created_num isoOk data pf hf n hp hh ht hc hn)

/-- C3 witness: the amended behaviour at two concrete records — a string
photo timestamp falls to `now` although a numeric `created_at_ts` is
present, and with a falsy photo timestamp the numeric `created_at_ts` is
used. -/
theorem C3_timestamp_exception_skips_to_fallback_witness :
    parse_timestamp (fun _ => false)
        [("photo", .obj [("high_resolution", .obj [("timestamp", .str "oops")])]),
         ("created_at_ts", .num 55)] = .ok .now ∧
    parse_timestamp (fun _ => false)
        [("photo", .obj [("high_resolution", .obj [])]),
         ("created_at_ts", .num 55)] = .ok (.fromEpoch 55) :=
  ⟨((C3_timestamp_exception_skips_to_fallback (fun _ => false)
      [("photo", .obj [("high_resolution", .obj [("timestamp", .str "oops")])]),
       ("created_at_ts", .num 55)]
      [("high_resolution", .obj [("timestamp", .str "oops")])]
      [("timestamp", .str "oops")]).2 rfl rfl).1 "oops" rfl (by decide),
   ((C3_timestamp_exception_skips_to_fallback (fun _ => false)
      [("photo", .obj [("high_resolution", .obj [])]),
       ("created_at_ts", .num 55)]
      [("high_resolution", .obj [])] []).2 rfl rfl).2 rfl 55 rfl (by decide)⟩

/-! ## Claim C9 — star rating -/

theorem roundHE_ge_floor (x : ℚ) : ⌊x⌋ ≤ roundHE x := by
  unfold roundHE
  by_cases h1 : x - ⌊x⌋ < 1/2
  · rw [if_pos h1]
  · rw [if_neg h1]
    by_cases h2 : x - ⌊x⌋ > 1/2
    · rw [if_pos h2]; omega
    · rw [if_neg h2]
      by_cases h3 : Even ⌊x⌋
      · rw [if_pos h3]
      · rw [if_neg h3]; omega

theorem roundHE_le_ceil (x : ℚ) : roundHE x ≤ ⌈x⌉ := by
  have hfc := Int.floor_le_ceil x
  have key : 1/2 ≤ x - ⌊x⌋ → ⌊x⌋ + 1 ≤ ⌈x⌉ := by
    intro hr
    have hx : (⌊x⌋ : ℚ) < x := by linarith
    have hlt : (⌊x⌋ : ℚ) < (⌈x⌉ : ℚ) := lt_of_lt_of_le hx (Int.le_ceil x)
    have : ⌊x⌋ < ⌈x⌉ := by exact_mod_cast hlt
    omega
  unfold roundHE
  by_cases h1 : x - ⌊x⌋ < 1/2
  · rw [if_pos h1]; exact hfc
  · rw [if_neg h1]
    by_cases h2 : x - ⌊x⌋ > 1/2
    · rw [if_pos h2]; exact key (by linarith)
    · rw [if_neg h2]
      by_cases h3 : Even ⌊x⌋
      · rw [if_pos h3]; exact hfc
      · rw [if_neg h3]; exact key (by linarith)

theorem roundHE_nonneg (x : ℚ) (hx : 0 ≤ x) : 0 ≤ roundHE x :=
  le_trans (Int.le_floor.mpr (by exact_mod_cast hx)) (roundHE_ge_floor x)

theorem roundHE_le_of_le (x : ℚ) (n : ℤ) (h : x ≤ n) : roundHE x ≤ n :=
  le_trans (roundHE_le_ceil x) (Int.ceil_le.mpr h)

theorem round1dp_nonneg (x : ℚ) (hx : 0 ≤ x) : 0 ≤ round1dp x := by
  unfold round1dp
  have h10 : 0 ≤ roundHE (10 * x) := roundHE_nonneg _ (by linarith)
  exact div_nonneg (by exact_mod_cast h10) (by norm_num)

theorem round1dp_le (x : ℚ) (n : ℤ) (h : x ≤ n) : round1dp x ≤ n := by
  unfold round1dp
  have h10 : (10 : ℚ) * x ≤ ((10 * n : ℤ) : ℚ) := by push_cast; linarith
  have hle := roundHE_le_of_le (10 * x) (10 * n) h10
  rw [div_le_iff (by norm_num : (0:ℚ) < 10)]
  calc (roundHE (10 * x) : ℚ) ≤ ((10 * n : ℤ) : ℚ) := by exact_mod_cast hle
    _ = n * 10 := by push_cast; ring

theorem reputation_percentage_bounds (p t : ℕ) (ht : 0 < t) (hp : p ≤ t) :
    0 ≤ reputation_percentage p t ∧ reputation_percentage p t ≤ 100 := by
  unfold reputation_percentage
  rw [if_pos ht]
  have htq : (0:ℚ) < t := by exact_mod_cast ht
  have hq0 : 0 ≤ (p * 100 : ℚ) / t := div_nonneg (by positivity) (le_of_lt htq)
  have hq1 : (p * 100 : ℚ) / t ≤ 100 := by
    rw [div_le_iff htq]
    have hpt : (p:ℚ) ≤ t := by exact_mod_cast hp
    linarith
  refine ⟨round1dp_nonneg _ hq0, ?_⟩
  have := round1dp_le ((p * 100 : ℚ) / t) 100 (by exact_mod_cast hq1)
  exact_mod_cast this

/-- C9 counterexample: at 113 positive of 125 total the code (which
rounds the percentage to one decimal) renders 5 stars, while the claim's
formula (integer `round`, Python banker's rounding) yields 4 stars:
`round(11300/125, 1) = 90.4`, `round(90.4/20) = round(4.52) = 5`, versus
`round(11300/125) = 90`, `round(90/20) = round(4.5) = 4`. -/
theorem C9_claim_counterexample :
    get_star_rating (reputation_percentage 113 125) = "⭐️⭐️⭐️⭐️⭐️" ∧
    get_star_rating (claim_reputation_percentage 113 125) = "⭐️⭐️⭐️⭐️" ∧
    reputation_percentage 113 125 ≠ claim_reputation_percentage 113 125 := by
  have h1 : reputation_percentage 113 125 = 452/5 := by
    norm_num [reputation_percentage, round1dp, roundHE]
  have h2 : claim_reputation_percentage 113 125 = 90 := by
    norm_num [claim_reputation_percentage, roundHE]
  refine ⟨?_, ?_, ?_⟩
  · rw [get_star_rating, h1]
    norm_num [roundHE]
    rfl
  · rw [get_star_rating, h2]
    norm_num [roundHE, Int.even_iff]
    rfl
  · rw [h1, h2]
    norm_num

/-- C9 (amended): the percentage is
`round(positiveCount * 100 / totalCount, 1)` — rounded to ONE DECIMAL
place, not to an integer — when total > 0, else 0; stars are
`round(percentage / 20)` glyphs.  The boundary cases hold as claimed:
0 total feedback renders 0 stars with `"(0)"` shown, 100% positive of 4
gives 5 stars, 60% gives 3 stars; and for any `p ≤ t` the star count lies
in 0..5. -/
theorem C9_star_rating (p t : ℕ) (ht : 0 < t) (hp : p ≤ t) :
    seller_rating_field 0 0 0 = " (0)" ∧
    get_star_rating (reputation_percentage 4 4) = "⭐️⭐️⭐️⭐️⭐️" ∧
    get_star_rating (reputation_percentage 3 5) = "⭐️⭐️⭐️" ∧
    0 ≤ roundHE (reputation_percentage p t / 20) ∧
    roundHE (reputation_percentage p t / 20) ≤ 5 := by
  obtain ⟨hb0, hb100⟩ := reputation_percentage_bounds p t ht hp
  refine ⟨?_, ?_, ?_, ?_, ?_⟩
  · have h0 : reputation_percentage 0 0 = 0 := by
      norm_num [reputation_percentage]
    rw [seller_rating_field, get_star_rating]
    norm_num [h0, roundHE]
    rfl
  · have h4 : reputation_percentage 4 4 = 100 := by
      norm_num [reputation_percentage, round1dp, roundHE]
    rw [get_star_rating, h4]
    norm_num [roundHE]
    rfl
  · have h35 : reputation_percentage 3 5 = 60 := by
      norm_num [reputation_percentage, round1dp, roundHE]
    rw [get_star_rating, h35]
    norm_num [roundHE]
    rfl
  · exact roundHE_nonneg _ (div_nonneg hb0 (by norm_num))
  · refine roundHE_le_of_le _ 5 ?_
    rw [div_le_iff (by norm_num : (0:ℚ) < 20)]
    push_cast
    linarith

/-- C9 witness: the amended statement instantiated at 3 positive of 5
total. -/
theorem C9_star_rating_witness :
    seller_rating_field 0 0 0 = " (0)" ∧
    0 ≤ roundHE (reputation_percentage 3 5 / 20) ∧
    roundHE (reputation_percentage 3 5 / 20) ≤ 5 :=
  ⟨(C9_star_rating 3 5 (by omega) (by omega)).1,
   (C9_star_rating 3 5 (by omega) (by omega)).2.2.2.1,
   (C9_star_rating 3 5 (by omega) (by omega)).2.2.2.2⟩

/-! ## Claim C10 — enriched-description display -/

/-- C10: the enrichment setter stores only truthy strings — `None` or `""`
leaves the slot untouched — and the displayed description is the enriched
one exactly in that case; starting from an unenriched listing, the
setter/getter pair computes exactly the inline fallback used in
`send_item_to_discord`, so an empty enrichment result can never replace
the listing's own description. -/
theorem C10_enriched_description_display (it : Item) (d : Option String) :
    ((d = none ∨ d = some "") → update_description_from_rapid_api it d = it) ∧
    (∀ s, d = some s → s ≠ "" →
      (update_description_from_rapid_api it d).get_description = s) ∧
    (it.rapid_api_description = none →
      (update_description_from_rapid_api it d).get_description =
        displayed_description d it.description) ∧
    displayed_description none it.description = it.description ∧
    displayed_description (some "") it.description = it.description := by
  refine ⟨?_, ?_, ?_, rfl, rfl⟩
  · rintro (rfl | rfl)
    · rfl
    · rfl
  · rintro s rfl hs
    simp [update_description_from_rapid_api, Item.get_description, hs]
  · intro h0
    cases d with
    | none => simp [update_description_from_rapid_api, Item.get_description,
        displayed_description, h0]
    | some s =>
      by_cases hs : s = ""
      · subst hs
        simp [update_description_from_rapid_api, Item.get_description,
          displayed_description, h0]
      · simp [update_description_from_rapid_api, Item.get_description,
          displayed_description, h0, hs]

/-- C10 witness: on a concrete unenriched listing, an empty enrichment
leaves the displayed description as the listing's own, and a non-empty
one replaces it. -/
theorem C10_enriched_description_display_witness :
    (update_description_from_rapid_api
      ⟨.num 1, .str "t", .num 2, .str "GBP", .str "b", .str "M", .str "u", .str "p",
       "own description", none, .now, .str "st", ⟨.num 0, .num 0, .num 0⟩⟩
      (some "")).get_description = "own description" ∧
    (update_description_from_rapid_api
      ⟨.num 1, .str "t", .num 2, .str "GBP", .str "b", .str "M", .str "u", .str "p",
       "own description", none, .now, .str "st", ⟨.num 0, .num 0, .num 0⟩⟩
      (some "enriched")).get_description = "enriched" := by
  constructor
  · rw [(C10_enriched_description_display
      ⟨.num 1, .str "t", .num 2, .str "GBP", .str "b", .str "M", .str "u", .str "p",
       "own description", none, .now, .str "st", ⟨.num 0, .num 0, .num 0⟩⟩
      (some "")).2.2.1 rfl]
    rfl
  · exact (C10_enriched_description_display
      ⟨.num 1, .str "t", .num 2, .str "GBP", .str "b", .str "M", .str "u", .str "p",
       "own description", none, .now, .str "st", ⟨.num 0, .num 0, .num 0⟩⟩
      (some "enriched")).2.1 "enriched" rfl (by decide)

/-! ## Claims C4 and C8 — listing construction and description order -/

theorem isObj_exists (v : JVal) (h : v.isObj = true) : ∃ f, v = .obj f := by
  cases v <;> simp_all [JVal.isObj]

theorem isArr_exists (v : JVal) (h : v.isArr = true) : ∃ l, v = .arr l := by
  cases v <;> simp_all [JVal.isArr]

theorem dictGet_of_not_hasKey (f : List (String × JVal)) (k : String) (d : JVal)
    (h : dictHasKey f k = false) : dictGet f k d = d := by
  unfold dictGet
  unfold dictHasKey at h
  cases hf : f.find? (fun p => p.1 == k) with
  | none => rfl
  | some p => rw [hf] at h; simp at h

theorem pySubscript_of_hasKey (f : List (String × JVal)) (k : String)
    (h : dictHasKey f k = true) :
    pySubscript (.obj f) k = .ok (dictGet f k .null) := by
  unfold pySubscript dictGet
  unfold dictHasKey at h
  cases hf : f.find? (fun p => p.1 == k) with
  | none => rw [hf] at h; simp at h
  | some p => simp [hf]

theorem firstNonBlank_append (a b : List JVal) :
    firstNonBlank (a ++ b) = (firstNonBlank a).orElse (fun _ => firstNonBlank b) := by
  induction a with
  | nil => rfl
  | cons d rest ih =>
    cases d with
    | str s =>
      by_cases hs : strStrip s != ""
      · show (if strStrip s != "" then some (strStrip s) else firstNonBlank (rest ++ b)) =
          Option.orElse (if strStrip s != "" then some (strStrip s) else firstNonBlank rest)
            (fun _ => firstNonBlank b)
        rw [if_pos hs, if_pos hs]
        rfl
      · show (if strStrip s != "" then some (strStrip s) else firstNonBlank (rest ++ b)) =
          Option.orElse (if strStrip s != "" then some (strStrip s) else firstNonBlank rest)
            (fun _ => firstNonBlank b)
        rw [if_neg hs, if_neg hs]
        exact ih
    | null => exact ih
    | bool bb => exact ih
    | num n => exact ih
    | arr l => exact ih
    | obj f => exact ih

theorem orElse_assoc (a b c : Option String) :
    (a.orElse (fun _ => b)).orElse (fun _ => c) =
      a.orElse (fun _ => b.orElse (fun _ => c)) := by
  cases a <;> rfl

theorem firstNonBlank_single (v : JVal) : firstNonBlank [v] = sourceCandidate v := by
  rcases v with _ | bb | n | s | l | f <;> simp [firstNonBlank, sourceCandidate]

theorem firstNonBlank_mbCand (f : List (String × JVal)) (k : String) :
    firstNonBlank (mbCand (dictHasKey f k) (dictGet f k .null)) =
      sourceCandidate (dictGet f k .null) := by
  cases hk : dictHasKey f k with
  | true => simp [mbCand, firstNonBlank_single]
  | false =>
    rw [dictGet_of_not_hasKey f k .null hk]
    simp [mbCand, firstNonBlank, sourceCandidate]

theorem mbCand_wf (b : Bool) (v : JVal) (h : wfCand v = true) :
    ∀ x ∈ mbCand b v, wfCand x = true := by
  intro x hx
  cases b <;> simp [mbCand] at hx
  rwa [hx]

theorem sectionDescriptionCandidates_ok (l : List JVal) (h : wfSections l = true) :
    sectionDescriptionCandidates l = .ok (sectionCandsPure l) := by
  induction l with
  | nil => rfl
  | cons sec rest ih =>
    have hall := h
    simp only [wfSections, List.all_cons, Bool.and_eq_true] at hall
    have hsec := hall.1
    have hrest : wfSections rest = true := hall.2
    simp only [wfSection, Bool.and_eq_true] at hsec
    obtain ⟨sf, hsf⟩ := isObj_exists sec hsec.1.1
    subst hsf
    obtain ⟨df, hdf⟩ := isObj_exists _ hsec.1.2
    unfold sectionDescriptionCandidates sectionCandsPure
    simp only [jvGet_obj, Bind.bind, Except.bind, objGetD] at hdf ⊢
    by_cases hname : jvalEqStr (dictGet sf "name" .null) "description"
    · simp only [hname, if_true]
      rw [hdf]
      simp only [jvGet_obj, Bind.bind, Except.bind, ih hrest, objGetD]
      split <;> rfl
    · simp only [hname, if_false]
      exact ih hrest

theorem sectionCandsPure_wf (l : List JVal) (h : wfSections l = true) :
    ∀ v ∈ sectionCandsPure l, wfCand v = true := by
  induction l with
  | nil => intro v hv; simp [sectionCandsPure] at hv
  | cons sec rest ih =>
    have hall := h
    simp only [wfSections, List.all_cons, Bool.and_eq_true] at hall
    intro v hv
    unfold sectionCandsPure at hv
    by_cases hname : jvalEqStr (objGetD sec "name" .null) "description"
    · rw [if_pos hname] at hv
      by_cases htr : pyTruthy (objGetD (objGetD sec "data" (.obj [])) "description" .null)
      · rw [if_pos htr] at hv
        rcases List.mem_cons.mp hv with rfl | hv'
        · have hsec := hall.1
          simp only [wfSection, Bool.and_eq_true] at hsec
          exact hsec.2
        · exact ih hall.2 v hv'
      · rw [if_neg htr] at hv
        exact ih hall.2 v hv
    · rw [if_neg hname] at hv
      exact ih hall.2 v hv

theorem firstValidDescription_eq (l : List JVal) (h : ∀ v ∈ l, wfCand v = true) :
    firstValidDescription l =
      .ok ((firstNonBlank l).getD "No description provided") := by
  induction l with
  | nil => rfl
  | cons d rest ih =>
    have hd := h d (List.mem_cons_self d rest)
    have hrest : ∀ v ∈ rest, wfCand v = true :=
      fun v hv => h v (List.mem_cons_of_mem d hv)
    cases d with
    | str s =>
      by_cases hs0 : s = ""
      · subst hs0
        unfold firstValidDescription
        simp only [pyTruthy_str, bne_self_eq_false, Bool.false_eq_true, if_false]
        rw [ih hrest]
        rfl
      · unfold firstValidDescription
        have htr : pyTruthy (JVal.str s) = true := by simp [hs0]
        rw [htr]
        simp only [if_true, pyStrip, Bind.bind, Except.bind]
        by_cases hblank : strStrip s != ""
        · rw [if_pos hblank]
          show Except.ok (strStrip s) =
            .ok ((if strStrip s != "" then some (strStrip s) else firstNonBlank rest).getD
              "No description provided")
          rw [if_pos hblank]
          rfl
        · rw [if_neg hblank]
          rw [ih hrest]
          show _ =
            Except.ok ((if strStrip s != "" then some (strStrip s) else
              firstNonBlank rest).getD "No description provided")
          rw [if_neg hblank]
    | null =>
      unfold firstValidDescription
      simp only [pyTruthy_null, Bool.false_eq_true, if_false]
      exact ih hrest
    | bool bb =>
      have hfalse : pyTruthy (JVal.bool bb) = false := by
        simpa [wfCand, JVal.isStr] using hd
      unfold firstValidDescription
      rw [hfalse]
      simpa using ih hrest
    | num n =>
      have hfalse : pyTruthy (JVal.num n) = false := by
        simpa [wfCand, JVal.isStr] using hd
      unfold firstValidDescription
      rw [hfalse]
      simpa using ih hrest
    | arr l2 =>
      have hfalse : pyTruthy (JVal.arr l2) = false := by
        simpa [wfCand, JVal.isStr] using hd
      unfold firstValidDescription
      rw [hfalse]
      simpa using ih hrest
    | obj f2 =>
      have hfalse : pyTruthy (JVal.obj f2) = false := by
        simpa [wfCand, JVal.isStr] using hd
      unfold firstValidDescription
      rw [hfalse]
      simpa using ih hrest

theorem firstNonBlank_sections (l : List JVal) (h : wfSections l = true) :
    firstNonBlank (sectionCandsPure l) = spec_sections_description l := by
  induction l with
  | nil => rfl
  | cons sec rest ih =>
    have hall := h
    simp only [wfSections, List.all_cons, Bool.and_eq_true] at hall
    have hsec := hall.1
    have hrest : wfSections rest = true := hall.2
    simp only [wfSection, Bool.and_eq_true] at hsec
    unfold sectionCandsPure spec_sections_description
    by_cases hname : jvalEqStr (objGetD sec "name" .null) "description"
    · rw [if_pos hname, if_pos hname]
      by_cases htr : pyTruthy (objGetD (objGetD sec "data" (.obj [])) "description" .null)
      · rw [if_pos htr]
        have hw := hsec.2
        obtain ⟨s, hs⟩ : ∃ s,
            objGetD (objGetD sec "data" (.obj [])) "description" .null = .str s := by
          rcases hv : objGetD (objGetD sec "data" (.obj [])) "description" .null with
            _ | bb | n | s | l2 | f2 <;> rw [hv] at htr hw <;>
            simp_all [wfCand, JVal.isStr]
        rw [hs]
        by_cases hblank : strStrip s != ""
        · simp [firstNonBlank, sourceCandidate, hblank]
        · simp [firstNonBlank, sourceCandidate, hblank, ih hrest]
      · rw [if_neg htr]
        have hnone : sourceCandidate
            (objGetD (objGetD sec "data" (.obj [])) "description" .null) = none := by
          rcases hv : objGetD (objGetD sec "data" (.obj [])) "description" .null with
            _ | bb | n | s | l2 | f2 <;> rw [hv] at htr <;>
            simp_all [sourceCandidate, pyTruthy]
          · subst htr
            rfl
        rw [hnone, ih hrest]
    · rw [if_neg hname, if_neg hname]
      exact ih hrest

theorem boxStep_eq (data : List (String × JVal)) (cands : List JVal)
    (bf : List (String × JVal))
    (hbf : dictGet data "item_box" (.obj []) = .obj bf) :
    boxStep data cands =
      .ok (cands ++ mbCand (dictHasKey bf "description") (dictGet bf "description" .null)) := by
  unfold boxStep
  rw [hbf]
  simp only [pyContains, Bind.bind, Except.bind]
  cases hk : dictHasKey bf "description" with
  | true =>
    rw [pySubscript_of_hasKey bf "description" hk]
    simp [mbCand, pure, Except.pure]
  | false => simp [mbCand, pure, Except.pure]

theorem dtoStep_eq (data : List (String × JVal)) (cands : List JVal)
    (prf ppf df : List (String × JVal))
    (hprf : dictGet data "props" (.obj []) = .obj prf)
    (hppf : dictGet prf "pageProps" (.obj []) = .obj ppf)
    (hdf : dictGet ppf "itemDto" (.obj []) = .obj df) :
    dtoStep data cands =
      .ok (cands ++ mbCand (dictHasKey df "description") (dictGet df "description" .null)) := by
  unfold dtoStep
  rw [hprf]
  simp only [jvGet_obj, Bind.bind, Except.bind, objGetD]
  rw [hppf]
  simp only [jvGet_obj, objGetD]
  rw [hdf]
  simp only [pyContains]
  cases hk : dictHasKey df "description" with
  | true =>
    rw [pySubscript_of_hasKey df "description" hk]
    simp [mbCand, pure, Except.pure]
  | false => simp [mbCand, pure, Except.pure]

theorem sectionsStep_eq (data : List (String × JVal)) (sl : List JVal)
    (hsl : dictGet data "sections" (.arr []) = .arr sl)
    (hwf : wfSections sl = true) :
    sectionsStep data = .ok (sectionCandsPure sl) := by
  unfold sectionsStep
  rw [hsl]
  simp only [pyIter, Bind.bind, Except.bind]
  exact sectionDescriptionCandidates_ok sl hwf

theorem extract_description_eq_spec (data : List (String × JVal))
    (h : wfDescription data = true) :
    extract_description data = .ok (spec_description data) := by
  have h' := h
  simp only [wfDescription, Bool.and_eq_true, and_assoc] at h'
  obtain ⟨hflat, hbox, hboxd, hprops, hpp, hdto, hdtod, hsecs, hsecwf⟩ := h'
  obtain ⟨bf, hbf⟩ := isObj_exists _ hbox
  rw [hbf] at hboxd
  simp only [objGetD] at hboxd
  obtain ⟨prf, hprf⟩ := isObj_exists _ hprops
  rw [hprf] at hpp hdto hdtod
  simp only [objGetD] at hpp hdto hdtod
  obtain ⟨ppf, hppf⟩ := isObj_exists _ hpp
  rw [hppf] at hdto hdtod
  simp only [objGetD] at hdto hdtod
  obtain ⟨df, hdf⟩ := isObj_exists _ hdto
  rw [hdf] at hdtod
  simp only [objGetD] at hdtod
  obtain ⟨sl, hsl⟩ := isArr_exists _ hsecs
  rw [hsl] at hsecwf
  simp only [arrElems] at hsecwf
  have hboxeq : ∀ c, boxStep data c =
      .ok (c ++ mbCand (dictHasKey bf "description") (dictGet bf "description" .null)) :=
    fun c => boxStep_eq data c bf hbf
  have hdtoeq : ∀ c, dtoStep data c =
      .ok (c ++ mbCand (dictHasKey df "description") (dictGet df "description" .null)) :=
    fun c => dtoStep_eq data c prf ppf df hprf hppf hdf
  have hseceq : sectionsStep data = .ok (sectionCandsPure sl) :=
    sectionsStep_eq data sl hsl hsecwf
  unfold extract_description
  simp only [hboxeq, hdtoeq, hseceq, Bind.bind, Except.bind]
  have hc1 : (if dictHasKey data "description" then [dictGet data "description" .null]
      else []) = mbCand (dictHasKey data "description") (dictGet data "description" .null) :=
    rfl
  rw [hc1]
  have hwfall : ∀ v ∈ ((mbCand (dictHasKey data "description")
        (dictGet data "description" .null) ++
      mbCand (dictHasKey bf "description") (dictGet bf "description" .null)) ++
      mbCand (dictHasKey df "description") (dictGet df "description" .null)) ++
      sectionCandsPure sl, wfCand v = true := by
    intro v hv
    simp only [List.mem_append] at hv
    rcases hv with ((h1 | h2) | h3) | h4
    · exact mbCand_wf _ _ hflat v h1
    · exact mbCand_wf _ _ hboxd v h2
    · exact mbCand_wf _ _ hdtod v h3
    · exact sectionCandsPure_wf sl hsecwf v h4
  rw [firstValidDescription_eq _ hwfall]
  congr 1
  rw [firstNonBlank_append, firstNonBlank_append, firstNonBlank_append,
    orElse_assoc, orElse_assoc,
    firstNonBlank_mbCand data "description",
    firstNonBlank_mbCand bf "description",
    firstNonBlank_mbCand df "description",
    firstNonBlank_sections sl hsecwf]
  unfold spec_description
  rw [hbf, hprf]
  simp only [objGetD]
  rw [hppf]
  simp only [objGetD]
  rw [hdf]
  simp only [objGetD]
  rw [hsl]
  simp only [arrElems]

/-- C8: under well-shaped description fields, `_extract_description`
computes exactly the spec's fixed resolution order — flat field, then
item-box, then page-props `itemDto`, then the first section named
`"description"`, first non-blank (stripped) candidate wins, with the
default sentinel otherwise. -/
theorem C8_description_resolution_order (data : List (String × JVal))
    (h : wfDescription data = true) :
    extract_description data = .ok (spec_description data) :=
  extract_description_eq_spec data h

/-- C8 witness: a record with both a top-level and a sections description
resolves to the (stripped) top-level one; a record with only the sections
description resolves to it. -/
theorem C8_description_resolution_order_witness :
    extract_description
      [("description", .str "  top  "),
       ("sections", .arr [.obj [("name", .str "description"),
         ("data", .obj [("description", .str "secdesc")])]])] = .ok "top" ∧
    extract_description
      [("sections", .arr [.obj [("name", .str "description"),
        ("data", .obj [("description", .str "secdesc")])]])] = .ok "secdesc" :=
  ⟨(C8_description_resolution_order
      [("description", .str "  top  "),
       ("sections", .arr [.obj [("name", .str "description"),
         ("data", .obj [("description", .str "secdesc")])]])]
      (by decide)).trans (congrArg Except.ok (by decide)),
   (C8_description_resolution_order
      [("sections", .arr [.obj [("name", .str "description"),
        ("data", .obj [("description", .str "secdesc")])]])]
      (by decide)).trans (congrArg Except.ok (by decide))⟩

theorem tsSourcePhoto_ok_or_type (data pf hf : List (String × JVal))
    (hp : dictGet data "photo" (.obj []) = .obj pf)
    (hh : dictGet pf "high_resolution" (.obj []) = .obj hf) :
    (tsSourcePhoto data).isOk = true ∨ tsSourcePhoto data = .error .typeError := by
  unfold tsSourcePhoto
  rw [hp]
  simp only [jvGet_obj, Bind.bind, Except.bind, objGetD]
  rw [hh]
  simp only [jvGet_obj, objGetD]
  by_cases htr : pyTruthy (dictGet hf "timestamp" .null) = true
  · rw [if_pos htr]
    cases hv : dictGet hf "timestamp" .null <;>
      simp_all [fromtimestamp, Bind.bind, Except.bind, pure, Except.pure,
        Except.isOk, Except.toBool]
  · rw [if_neg htr]
    left
    rfl

theorem tsSourceLast_isOk (isoOk : String → Bool) (data : List (String × JVal))
    (hll : (!pyTruthy (dictGet data "last_loged_on_ts" .null) ||
      (dictGet data "last_loged_on_ts" .null).isStr) = true) :
    (tsSourceLast isoOk data).isOk = true := by
  unfold tsSourceLast
  by_cases htr : pyTruthy (dictGet data "last_loged_on_ts" .null) = true
  · rw [if_pos htr]
    have hstr : (dictGet data "last_loged_on_ts" .null).isStr = true := by
      rw [htr] at hll
      simpa using hll
    obtain ⟨s, hs⟩ : ∃ s, dictGet data "last_loged_on_ts" .null = .str s := by
      cases hv : dictGet data "last_loged_on_ts" .null <;>
        simp_all [JVal.isStr]
    rw [hs]
    simp only [pyReplaceZ, Bind.bind, Except.bind]
    split <;> rfl
  · rw [if_neg htr]
    rfl

theorem parse_timestamp_isOk (isoOk : String → Bool)
    (data pf hf : List (String × JVal))
    (hp : dictGet data "photo" (.obj []) = .obj pf)
    (hh : dictGet pf "high_resolution" (.obj []) = .obj hf)
    (hll : (!pyTruthy (dictGet data "last_loged_on_ts" .null) ||
      (dictGet data "last_loged_on_ts" .null).isStr) = true) :
    (parse_timestamp isoOk data).isOk = true := by
  rcases tsSourcePhoto_ok_or_type data pf hf hp hh with hok | herr
  · obtain ⟨o, ho⟩ : ∃ o, tsSourcePhoto data = .ok o := by
      cases hv : tsSourcePhoto data with
      | ok o => exact ⟨o, rfl⟩
      | error e => rw [hv] at hok; simp [Except.isOk, Except.toBool] at hok
    unfold parse_timestamp timestampSources
    rw [ho]
    simp only [Bind.bind, Except.bind]
    cases o with
    | some dt => rfl
    | none =>
      cases hc : tsSourceCreated isoOk data with
      | some dt => rfl
      | none =>
        have hlast := tsSourceLast_isOk isoOk data hll
        cases hv : tsSourceLast isoOk data with
        | ok o2 => cases o2 <;> rfl
        | error e => rw [hv] at hlast; simp [Except.isOk, Except.toBool] at hlast
  · unfold parse_timestamp timestampSources
    rw [herr]
    rfl

theorem extract_user_feedback_ok (data uf : List (String × JVal))
    (hu : dictGet data "user" (.obj []) = .obj uf) :
    extract_user_feedback data =
      .ok ⟨dictGet uf "positive_feedback_count" (.num 0),
           dictGet uf "neutral_feedback_count" (.num 0),
           dictGet uf "negative_feedback_count" (.num 0)⟩ := by
  unfold extract_user_feedback
  rw [hu]
  simp only [jvGet_obj, Bind.bind, Except.bind, objGetD]
  rfl

theorem fromRaw_isOk (isoOk : String → Bool) (data : List (String × JVal))
    (h : wfRecord data = true) :
    (Item.fromRaw isoOk data).isOk = true := by
  have h' := h
  simp only [wfRecord, Bool.and_eq_true, and_assoc] at h'
  obtain ⟨hphoto, hdesc, hts, huser⟩ := h'
  simp only [wfTimestampFields, Bool.and_eq_true, and_assoc] at hts
  obtain ⟨hphoto2, hhires, hll⟩ := hts
  obtain ⟨pf, hpf⟩ := isObj_exists _ hphoto
  rw [hpf] at hhires
  simp only [objGetD] at hhires
  obtain ⟨hf, hhf⟩ := isObj_exists _ hhires
  obtain ⟨uf, huf⟩ := isObj_exists _ huser
  have hpok := parse_timestamp_isOk isoOk data pf hf hpf hhf hll
  obtain ⟨dt, hdt⟩ : ∃ dt, parse_timestamp isoOk data = .ok dt := by
    cases hv : parse_timestamp isoOk data with
    | ok dt => exact ⟨dt, rfl⟩
    | error e => rw [hv] at hpok; simp [Except.isOk, Except.toBool] at hpok
  unfold Item.fromRaw
  rw [hpf]
  simp only [jvGet_obj, Bind.bind, Except.bind, objGetD,
    extract_description_eq_spec data hdesc, hdt,
    extract_user_feedback_ok data uf huf]
  rfl

/-- C4 counterexample: a record whose `photo` key holds `None` makes
`data.get("photo", {}).get("url", ...)` raise `AttributeError` inside
`Item.__init__` — construction is not total. -/
theorem C4_claim_counterexample :
    Item.fromRaw (fun _ => false) [("photo", .null)] = .error .attributeError ∧
    Item.fromRaw (fun _ => false) [("sections", .num 5)] = .error .typeError := by
  exact ⟨rfl, rfl⟩

/-- C4 (amended): construction never raises on records whose structural
fields are well-shaped where present — `photo` (and its
`high_resolution`) a dict, the description sources as in
`wfDescription`, `last_loged_on_ts` a string when truthy, `user` a dict;
absent fields degrade to the sentinel defaults (second conjunct: the
empty record yields exactly the sentinel listing).  A null `photo` or a
non-list `sections` value, by contrast, raises (see the
counterexample). -/
theorem C4_fromRaw_total_on_wf (isoOk : String → Bool)
    (data : List (String × JVal)) (h : wfRecord data = true) :
    (Item.fromRaw isoOk data).isOk = true ∧
    Item.fromRaw isoOk [] = .ok ⟨.str "Unknown ID", .str "No title provided",
      .str "Unknown price", .str "Unknown currency", .str "Unknown brand",
      .str "Unknown size", .str "No URL provided", .str "No photo URL",
      "No description provided", none, .now, .str "Unknown status",
      ⟨.num 0, .num 0, .num 0⟩⟩ :=
  ⟨fromRaw_isOk isoOk data h, rfl⟩

/-- C4 witness: a representative well-shaped record constructs
successfully. -/
theorem C4_fromRaw_total_on_wf_witness :
    (Item.fromRaw (fun _ => false)
      [("id", .num 9), ("title", .str "tee"),
       ("photo", .obj [("url", .str "http"),
         ("high_resolution", .obj [("timestamp", .num 1700000000)])]),
       ("description", .str "nice"),
       ("user", .obj [("id", .num 42), ("positive_feedback_count", .num 3)])]).isOk =
      true :=
  (C4_fromRaw_total_on_wf (fun _ => false)
    [("id", .num 9), ("title", .str "tee"),
     ("photo", .obj [("url", .str "http"),
       ("high_resolution", .obj [("timestamp", .num 1700000000)])]),
     ("description", .str "nice"),
     ("user", .obj [("id", .num 42), ("positive_feedback_count", .num 3)])]
    (by decide)).1
